import Mathlib

/-!
NNUE evaluation front end (`src/nnue/evaluate_nnue.cpp`)

A shallow embedding of the parameter-file reader and of the compute-or-reuse
score cache of `Eval::NNUE`, with theorems about both.

Conventions of the embedding.

* A `std::istream` is the list of bytes not yet extracted plus its three state
  bits; `read` and `peek` follow the unformatted-input rules of the standard.
* A `std::uint32_t` filled by `stream.read` is `some v` when all four bytes
  arrived and `none` (indeterminate in C++) when the read fell short.
* The classes `FeatureTransformer` and `Network`, the constants `kVersion`,
  `kHashValue`, `FV_SCALE` and the byte order of the machine are declared
  outside this translation unit; they are the fields of `Arch`.
* `feature_transformer` and `network` are modelled by the objects they point to:
  `load_eval` runs `Initialize` before anything dereferences them. Failure of
  an allocation (`aligned_alloc`, `std::string::resize`) is not modelled.
* `Value` and `std::int32_t` quantities are integers; `output[0] / FV_SCALE` is
  `Int.tdiv`, the division of C++.
* `World.calls` is a ghost log of the calls made into the two model
  components; it has no counterpart in the C++ state.
* The file system seen by `std::ifstream` is a map from file names to contents;
  what `load_eval` writes to `std::cout` is returned as a string.
-/

/-! ## The piece table -/

/-- The enumerators of `PieceSquare` that the table names. Their numeric values are
declared outside this file and play no part here. -/
inductive PieceSquare where
  | PS_NONE
  | PS_W_PAWN
  | PS_B_PAWN
  | PS_W_KNIGHT
  | PS_B_KNIGHT
  | PS_W_BISHOP
  | PS_B_BISHOP
  | PS_W_ROOK
  | PS_B_ROOK
  | PS_W_QUEEN
  | PS_B_QUEEN
  | PS_W_KING
  | PS_B_KING
deriving DecidableEq, Repr

/-- Aggregate `ExtPieceSquare`: the member array `from[COLOR_NB]`, first the entry seen
from white, then the entry seen from black. -/
structure ExtPieceSquare where
  from_WHITE : PieceSquare
  from_BLACK : PieceSquare
deriving DecidableEq, Repr

/-- The entry with its two perspectives exchanged. -/
def ExtPieceSquare.swap (e : ExtPieceSquare) : ExtPieceSquare :=
  ⟨e.from_BLACK, e.from_WHITE⟩

/-- Array `kpp_board_index[PIECE_NB]`, in the order of its initialisers. -/
def kpp_board_index : List ExtPieceSquare :=
  [ ⟨.PS_NONE, .PS_NONE⟩,
    ⟨.PS_W_PAWN, .PS_B_PAWN⟩,
    ⟨.PS_W_KNIGHT, .PS_B_KNIGHT⟩,
    ⟨.PS_W_BISHOP, .PS_B_BISHOP⟩,
    ⟨.PS_W_ROOK, .PS_B_ROOK⟩,
    ⟨.PS_W_QUEEN, .PS_B_QUEEN⟩,
    ⟨.PS_W_KING, .PS_B_KING⟩,
    ⟨.PS_NONE, .PS_NONE⟩,
    ⟨.PS_NONE, .PS_NONE⟩,
    ⟨.PS_B_PAWN, .PS_W_PAWN⟩,
    ⟨.PS_B_KNIGHT, .PS_W_KNIGHT⟩,
    ⟨.PS_B_BISHOP, .PS_W_BISHOP⟩,
    ⟨.PS_B_ROOK, .PS_W_ROOK⟩,
    ⟨.PS_B_QUEEN, .PS_W_QUEEN⟩,
    ⟨.PS_B_KING, .PS_W_KING⟩,
    ⟨.PS_NONE, .PS_NONE⟩ ]

namespace Eval.NNUE

/-! ## Input streams -/

/-- One `char` of a binary stream. -/
abbrev Byte := Fin 256

/-- State of a `std::istream`: the bytes of the input sequence that have not been
extracted yet, and the `iostate` bits. -/
structure IStream where
  data : List Byte
  eofbit : Bool
  failbit : Bool
  badbit : Bool
deriving DecidableEq, Repr

/-- A freshly opened stream over the given bytes (`goodbit`). -/
def IStream.ofBytes (bytes : List Byte) : IStream :=
  ⟨bytes, false, false, false⟩

/-- Result of `std::basic_ios::good()`. -/
def IStream.good (s : IStream) : Bool :=
  !s.eofbit && !s.failbit && !s.badbit

/-- Result of `std::basic_ios::fail()`; `!stream` is this, `bool(stream)` its negation. -/
def IStream.fail (s : IStream) : Bool :=
  s.failbit || s.badbit

/-- Unformatted `stream.read(buf, n)`: the characters stored in `buf` and the stream
afterwards. On a stream that is not `good()` the sentry sets `failbit` and nothing is
extracted; when the sequence ends before `n` characters, what is left is extracted and
`eofbit | failbit` are set. -/
def IStream.read (s : IStream) (n : Nat) : List Byte × IStream :=
  if s.good then
    if n ≤ s.data.length then
      (s.data.take n, { s with data := s.data.drop n })
    else
      (s.data, { s with data := [], eofbit := true, failbit := true })
  else
    ([], { s with failbit := true })

/-- Unformatted `stream.peek()`: `none` stands for `traits_type::eof()`. On a stream
that is not `good()` the sentry sets `failbit`; at the end of the sequence `eofbit` is
set; otherwise the next character is returned without being extracted. -/
def IStream.peek (s : IStream) : Option Byte × IStream :=
  if s.good then
    match s.data with
    | [] => (none, { s with eofbit := true })
    | b :: _ => (some b, s)
  else
    (none, { s with failbit := true })

/-- Value of a `std::uint32_t` whose object representation is the given bytes, least
significant byte first. -/
def decodeLE : List Byte → Nat
  | [] => 0
  | b :: bs => b.val + 256 * decodeLE bs

/-- Value of a `std::uint32_t` overwritten through `reinterpret_cast<char*>`: the byte
order is that of the machine. -/
def decodeU32 (bigEndian : Bool) (bs : List Byte) : Nat :=
  if bigEndian then decodeLE bs.reverse else decodeLE bs

/-- The statement `stream.read(reinterpret_cast<char*>(&x), sizeof(x))` for a
`std::uint32_t x`: the value of `x` afterwards (`none` when fewer than four bytes
arrived, so that `x` is indeterminate) and the stream. -/
def readU32 (bigEndian : Bool) (stream : IStream) : Option Nat × IStream :=
  let r := stream.read 4
  (if r.1.length = 4 then some (decodeU32 bigEndian r.1) else none, r.2)

/-! ## Collaborators declared outside this file -/

/-- Calls into the model components, recorded in the ghost log. -/
inductive Call where
  | FeatureTransformer_ReadParameters
  | Network_ReadParameters
  | Transform (refresh : Bool)
  | Propagate
  | UpdateAccumulatorIfPossible
deriving DecidableEq, Repr

/-- The members of a model component class `T` that this file uses for loading:
`T::GetHashValue()`, `T::GetStructureString()`, the all-zero object left by
`std::memset`, and `T::ReadParameters(std::istream&)`, which returns its verdict, the
stream as it leaves it and the object as it leaves it. -/
structure Component (T : Type) where
  GetHashValue : Nat
  GetStructureString : String
  zero : T
  ReadParameters : IStream → T → Bool × IStream × T

/-- Record `pos.state()->accumulator`: the two members this file touches, and the
members owned by the feature transformer. -/
structure Accumulator (A : Type) where
  accumulation : A
  score : Int
  computed_score : Bool

/-- A `Position` as far as this file sees it: the accumulator of its current state
frame, and everything else (board, earlier frames). -/
structure Position (B A : Type) where
  board : B
  accumulator : Accumulator A

/-- Everything `evaluate_nnue.cpp` takes from its headers: the two component classes,
the evaluation entry points of their objects, and the compiled-in constants.
`Transform` returns the buffer it fills and the position as it leaves it (it may write
the accumulator behind `pos.state()`); `Propagate` returns the array it points to, as
a function of the index. -/
structure Arch where
  FT : Type
  Net : Type
  Board : Type
  Acc : Type
  Buf : Type
  bigEndian : Bool
  kVersion : Nat
  kHashValue : Nat
  FV_SCALE : Int
  FeatureTransformer : Component FT
  Network : Component Net
  Transform : FT → Position Board Acc → Bool → Buf × Position Board Acc
  UpdateAccumulatorIfPossible : FT → Position Board Acc → Position Board Acc
  Propagate : Net → Buf → Nat → Int

/-- Position type of an architecture. -/
abbrev Arch.Pos (a : Arch) : Type := Position a.Board a.Acc

/-- Global state of `Eval::NNUE`: the objects behind `feature_transformer` and
`network`, `fileName`, and the ghost log of component calls. -/
structure World (a : Arch) where
  feature_transformer : a.FT
  network : a.Net
  fileName : String
  calls : List Call

/-! ## Loading -/

/-- Outcome of a reader: the returned `bool`, the stream afterwards and the state the
reader may have written. -/
structure Outcome (σ : Type) where
  ok : Bool
  stream : IStream
  state : σ

/-- What `ReadHeader` leaves in `*hash_value` and `*architecture`. -/
structure Header where
  hash_value : Option Nat
  architecture : List Byte

/-- Function `Eval::NNUE::GetArchitectureString`. -/
def GetArchitectureString (a : Arch) : String :=
  "Features=" ++ a.FeatureTransformer.GetStructureString ++
    ",Network=" ++ a.Network.GetStructureString

/-- Function `Detail::Initialize<T>`: a fresh object filled with zero bytes. -/
def Detail.Initialize {T : Type} (c : Component T) (_pointer : T) : T :=
  c.zero

/-- Function `Detail::ReadParameters<T>`; `tag` names the instantiation in the ghost
log. -/
def Detail.ReadParameters {T : Type} (bigEndian : Bool) (c : Component T) (tag : Call)
    (stream : IStream) (pointer : T) (calls : List Call) : Outcome (T × List Call) :=
  let header := readU32 bigEndian stream
  if header.2.fail || header.1 != some c.GetHashValue then
    ⟨false, header.2, (pointer, calls)⟩
  else
    let r := c.ReadParameters header.2 pointer
    ⟨r.1, r.2.1, (r.2.2, calls ++ [tag])⟩

/-- Function `Eval::NNUE::Initialize`. -/
def Initialize (a : Arch) (w : World a) : World a :=
  { w with
    feature_transformer := Detail.Initialize a.FeatureTransformer w.feature_transformer
    network := Detail.Initialize a.Network w.network }

/-- Function `Eval::NNUE::ReadHeader`. The three fixed fields are read before the
stream is tested, so a field left indeterminate by a short read is never compared:
`!stream` holds then. The caller passes an empty `architecture`; after `resize(size)`
a short read leaves the missing characters zero. -/
def ReadHeader (a : Arch) (stream : IStream) : Outcome Header :=
  let version := readU32 a.bigEndian stream
  let hash_value := readU32 a.bigEndian version.2
  let size := readU32 a.bigEndian hash_value.2
  if size.2.fail || version.1 != some a.kVersion then
    ⟨false, size.2, ⟨hash_value.1, []⟩⟩
  else
    let n := size.1.getD 0
    let r := size.2.read n
    ⟨!r.2.fail, r.2, ⟨hash_value.1, r.1 ++ List.replicate (n - r.1.length) 0⟩⟩

/-- Function `Eval::NNUE::ReadParameters`. -/
def ReadParameters (a : Arch) (stream : IStream) (w : World a) : Outcome (World a) :=
  let h := ReadHeader a stream
  if !h.ok then ⟨false, h.stream, w⟩
  else if h.state.hash_value != some a.kHashValue then ⟨false, h.stream, w⟩
  else
    let r1 := Detail.ReadParameters a.bigEndian a.FeatureTransformer
      Call.FeatureTransformer_ReadParameters h.stream w.feature_transformer w.calls
    let w1 : World a := { w with feature_transformer := r1.state.1, calls := r1.state.2 }
    if !r1.ok then ⟨false, r1.stream, w1⟩
    else
      let r2 := Detail.ReadParameters a.bigEndian a.Network
        Call.Network_ReadParameters r1.stream w1.network w1.calls
      let w2 : World a := { w1 with network := r2.state.1, calls := r2.state.2 }
      if !r2.ok then ⟨false, r2.stream, w2⟩
      else if r2.stream.fail then ⟨false, r2.stream, w2⟩
      else
        let p := r2.stream.peek
        ⟨p.1 == none, p.2, w2⟩

/-- Constructor `std::ifstream stream(evalFile, std::ios::binary)`: a stream over the
contents of the file, or a stream with `failbit` set when the file cannot be opened. -/
def ifstream (files : String → Option (List Byte)) (evalFile : String) : IStream :=
  match files evalFile with
  | some bytes => IStream.ofBytes bytes
  | none => ⟨[], false, true, false⟩

/-- What a call of `load_eval` leaves: the global state, the local `result`, and the
characters written to `std::cout`, the newline of `std::endl` included. -/
structure LoadReport (a : Arch) where
  world : World a
  result : Bool
  output : String

/-- Function `Eval::NNUE::load_eval`. -/
def load_eval (a : Arch) (files : String → Option (List Byte)) (evalFile : String)
    (w : World a) : LoadReport a :=
  let w0 := Initialize a w
  let w1 : World a := { w0 with fileName := evalFile }
  let stream := ifstream files evalFile
  let r := ReadParameters a stream w1
  let result := r.ok
  if !result then
    ⟨r.state, result, "Error! " ++ r.state.fileName ++ " not found or wrong format\n"⟩
  else
    ⟨r.state, result, "info string NNUE " ++ r.state.fileName ++ " found & loaded\n"⟩

/-! ## Evaluation -/

/-- Result of an evaluation entry point: the returned `Value`, and the global state
and position afterwards. -/
structure Scored (a : Arch) where
  value : Int
  world : World a
  pos : a.Pos

/-- Function `Eval::NNUE::UpdateAccumulatorIfPossible` (file-local). -/
def UpdateAccumulatorIfPossible (a : Arch) (w : World a) (pos : a.Pos) : World a × a.Pos :=
  ({ w with calls := w.calls ++ [Call.UpdateAccumulatorIfPossible] },
    a.UpdateAccumulatorIfPossible w.feature_transformer pos)

/-- Function `Eval::NNUE::ComputeScore`. The quotient `output[0] / FV_SCALE` is the
C++ signed division, which truncates toward zero. -/
def ComputeScore (a : Arch) (w : World a) (pos : a.Pos) (refresh : Bool) : Scored a :=
  if !refresh && pos.accumulator.computed_score then
    ⟨pos.accumulator.score, w, pos⟩
  else
    let t := a.Transform w.feature_transformer pos refresh
    let w1 : World a := { w with calls := w.calls ++ [Call.Transform refresh] }
    let output := a.Propagate w1.network t.1
    let w2 : World a := { w1 with calls := w1.calls ++ [Call.Propagate] }
    let score := Int.tdiv (output 0) a.FV_SCALE
    let accumulator : Accumulator a.Acc :=
      { t.2.accumulator with score := score, computed_score := true }
    ⟨accumulator.score, w2, { t.2 with accumulator := accumulator }⟩

/-- Function `Eval::NNUE::evaluate`. -/
def evaluate (a : Arch) (w : World a) (pos : a.Pos) : Scored a :=
  ComputeScore a w pos false

/-- Function `Eval::NNUE::compute_eval`. -/
def compute_eval (a : Arch) (w : World a) (pos : a.Pos) : Scored a :=
  ComputeScore a w pos true

/-- Function `Eval::NNUE::update_eval`. -/
def update_eval (a : Arch) (w : World a) (pos : a.Pos) : World a × a.Pos :=
  UpdateAccumulatorIfPossible a w pos

/-! ## Vocabulary of the statements -/

/-- The four bytes `bs` are the object representation of the `std::uint32_t` value `v`. -/
def EncodesU32 (bigEndian : Bool) (bs : List Byte) (v : Nat) : Prop :=
  bs.length = 4 ∧ decodeU32 bigEndian bs = v

instance (bigEndian : Bool) (bs : List Byte) (v : Nat) : Decidable (EncodesU32 bigEndian bs v) :=
  inferInstanceAs (Decidable (_ ∧ _))

/-- Byte strings `t` and `u` differ in exactly one position. -/
def SingleByteChange (t u : List Byte) : Prop :=
  ∃ (pre : List Byte) (b c : Byte) (post : List Byte),
    b ≠ c ∧ t = pre ++ b :: post ∧ u = pre ++ c :: post

/-- Layout of a parameter file: header fields, description, and the two tagged
payloads, in stream order. -/
def blob (vb hb lb desc t1 p1 t2 p2 : List Byte) : List Byte :=
  vb ++ (hb ++ (lb ++ (desc ++ (t1 ++ (p1 ++ (t2 ++ p2))))))

/-- The four bytes `t` read as a component hash tag do not carry the value `h`. -/
def TagMismatch (bigEndian : Bool) (t : List Byte) (h : Nat) : Prop :=
  t.length = 4 ∧ decodeU32 bigEndian t ≠ h

instance (bigEndian : Bool) (t : List Byte) (h : Nat) : Decidable (TagMismatch bigEndian t h) :=
  inferInstanceAs (Decidable (_ ∧ _))

/-- The call `c` was made after the ghost log read `before` and before it read
`after`. -/
def CalledSince (before after : List Call) (c : Call) : Prop :=
  c ∈ after.drop before.length

instance (before after : List Call) (c : Call) : Decidable (CalledSince before after c) :=
  inferInstanceAs (Decidable (_ ∈ _))

/-- A component reader that consumes a payload of exactly `n` bytes: it leaves the
stream as `stream.read` of `n` bytes does and returns `!stream.fail()`, so it fails on
a payload shorter than `n` and never looks at what follows. -/
def Component.ReadsFixed {T : Type} (c : Component T) (n : Nat) : Prop :=
  ∀ (s : IStream) (p : T),
    (c.ReadParameters s p).1 = !(s.read n).2.fail ∧ (c.ReadParameters s p).2.1 = (s.read n).2

/-- The defects of a parameter file that stop `ReadParameters` before the feature
transformer's reader is reached, stated on the result of opening the file: it cannot
be opened; it ends inside the twelve fixed header bytes; its version is not
`kVersion`; its global hash is not `kHashValue`; it ends inside the description or
inside the feature transformer's tag; or that tag does not carry the feature
transformer's hash. -/
inductive EarlyFailure (a : Arch) : Option (List Byte) → Prop where
  | not_opened : EarlyFailure a none
  | short_header (d : List Byte) : d.length < 12 → EarlyFailure a (some d)
  | version (vb rest : List Byte) :
      vb.length = 4 → decodeU32 a.bigEndian vb ≠ a.kVersion →
      EarlyFailure a (some (vb ++ rest))
  | global_hash (vb hb rest : List Byte) :
      vb.length = 4 → hb.length = 4 → decodeU32 a.bigEndian hb ≠ a.kHashValue →
      EarlyFailure a (some (vb ++ (hb ++ rest)))
  | short_description_or_tag (vb hb lb rest : List Byte) :
      vb.length = 4 → hb.length = 4 → lb.length = 4 →
      rest.length < decodeU32 a.bigEndian lb + 4 →
      EarlyFailure a (some (vb ++ (hb ++ (lb ++ rest))))
  | feature_tag (vb hb lb desc t1 rest : List Byte) :
      vb.length = 4 → hb.length = 4 → EncodesU32 a.bigEndian lb desc.length →
      TagMismatch a.bigEndian t1 a.FeatureTransformer.GetHashValue →
      EarlyFailure a (some (vb ++ (hb ++ (lb ++ (desc ++ (t1 ++ rest))))))

/-! ## A small concrete architecture -/

/-- Sum of the bytes of a parameter block. -/
def sumBytes (bs : List Byte) : Int :=
  (bs.map (fun b => (b.val : Int))).sum

/-- A component whose parameters are `n` raw bytes, read in one `stream.read`; a short
read overwrites only the leading bytes. -/
def rawComponent (hash : Nat) (name : String) (n : Nat) : Component (List Byte) where
  GetHashValue := hash
  GetStructureString := name
  zero := List.replicate n 0
  ReadParameters := fun s p =>
    let r := s.read n
    (!r.2.fail, r.2, r.1 ++ p.drop r.1.length)

/-- A little-endian architecture with a two-byte feature transformer and a one-byte
network. The board is one integer; the accumulation caches the transformed value once
computed, is reused by `Transform` unless a refresh is forced, and is filled in by the
update hook. Recomputing the accumulation clears `computed_score`. -/
def demoArch : Arch where
  FT := List Byte
  Net := List Byte
  Board := Int
  Acc := Option Int
  Buf := Int
  bigEndian := false
  kVersion := 0x7AF32F16
  kHashValue := 0x3E5AA6EE
  FV_SCALE := 16
  FeatureTransformer := rawComponent 0x5D69D7B8 "HalfKP" 2
  Network := rawComponent 0x63337156 "AffineTransform" 1
  Transform := fun ft pos refresh =>
    match refresh, pos.accumulator.accumulation with
    | false, some v => (v, pos)
    | _, _ =>
      (pos.board * sumBytes ft,
        { pos with accumulator :=
            { pos.accumulator with
              accumulation := some (pos.board * sumBytes ft), computed_score := false } })
  UpdateAccumulatorIfPossible := fun ft pos =>
    match pos.accumulator.accumulation with
    | some _ => pos
    | none =>
      { pos with accumulator :=
          { pos.accumulator with
            accumulation := some (pos.board * sumBytes ft), computed_score := false } }
  Propagate := fun net buf _ => buf * 3 - sumBytes net

/-- Global state of `demoArch` right after `Initialize`. -/
def demoWorld : World demoArch :=
  ⟨[0, 0], [0], "nn.bin", []⟩

/-- Global state of `demoArch` after loading the demo payloads. -/
def demoLoaded : World demoArch :=
  ⟨[7, 9], [5], "nn.bin", []⟩

/-- A position of `demoArch` on a fresh state frame. -/
def demoPos : demoArch.Pos :=
  ⟨(-7 : Int), ⟨none, 0, false⟩⟩

/-- Bytes of `kVersion` for `demoArch`. -/
def demoVersion : List Byte := [0x16, 0x2F, 0xF3, 0x7A]

/-- Bytes of `kHashValue` for `demoArch`. -/
def demoHash : List Byte := [0xEE, 0xA6, 0x5A, 0x3E]

/-- Bytes of a description length of two. -/
def demoLen : List Byte := [2, 0, 0, 0]

/-- A two-byte description. -/
def demoDesc : List Byte := [104, 105]

/-- Bytes of the feature transformer's hash for `demoArch`. -/
def demoTag1 : List Byte := [0xB8, 0xD7, 0x69, 0x5D]

/-- Bytes of the network's hash for `demoArch`. -/
def demoTag2 : List Byte := [0x56, 0x71, 0x33, 0x63]

/-- A feature transformer payload for `demoArch`. -/
def demoPayload1 : List Byte := [7, 9]

/-- A network payload for `demoArch`. -/
def demoPayload2 : List Byte := [5]

/-- The demo parameter file. -/
def demoFile : List Byte :=
  blob demoVersion demoHash demoLen demoDesc demoTag1 demoPayload1 demoTag2 demoPayload2

/-- A file system with the demo file, a second well-formed file carrying other weights,
and the demo file followed by one stray byte. -/
def demoFiles : String → Option (List Byte) := fun name =>
  if name = "nn.bin" then some demoFile
  else if name = "other.bin" then
    some (blob demoVersion demoHash demoLen demoDesc demoTag1 [1, 1] demoTag2 [200])
  else if name = "trailing.bin" then some (demoFile ++ [0])
  else none

/-- Global state after loading the demo file and evaluating `demoPos` once. -/
def demoEvaluatedWorld : World demoArch :=
  (evaluate demoArch (load_eval demoArch demoFiles "nn.bin" demoWorld).world demoPos).world

/-- The position `demoPos` after that evaluation: its score is cached. -/
def demoEvaluatedPos : demoArch.Pos :=
  (evaluate demoArch (load_eval demoArch demoFiles "nn.bin" demoWorld).world demoPos).pos

/-- Global state after then reloading from the second demo file. -/
def demoReloadedWorld : World demoArch :=
  (load_eval demoArch demoFiles "other.bin" demoEvaluatedWorld).world

/-- A position on a frame whose score is not computed (`computed_score` clear) and
whose accumulation, -112, was computed under the weights of the demo file. -/
def demoStalePos : demoArch.Pos :=
  ⟨(-7 : Int), ⟨some (-112), 0, false⟩⟩

/-- A component whose reader takes every byte the stream still holds: the size of its
payload is whatever is available. -/
def drainComponent (hash : Nat) (name : String) : Component (List Byte) where
  GetHashValue := hash
  GetStructureString := name
  zero := []
  ReadParameters := fun s _ =>
    let r := s.read s.data.length
    (!r.2.fail, r.2, r.1)

/-- The demo architecture with a network whose reader drains the stream. -/
def drainArch : Arch :=
  { demoArch with Net := List Byte, Network := drainComponent 0x63337156 "Drain" }

/-- Global state of `drainArch` right after `Initialize`. -/
def drainWorld : World drainArch :=
  ⟨[0, 0], [], "nn.bin", []⟩

end Eval.NNUE

/-! ## Lemmas on streams -/

namespace Eval.NNUE

theorem IStream.good_ofBytes (d : List Byte) : (IStream.ofBytes d).good = true := rfl

theorem IStream.fail_ofBytes (d : List Byte) : (IStream.ofBytes d).fail = false := rfl

theorem IStream.eq_ofBytes_of_good {s : IStream} (h : s.good = true) :
    s = IStream.ofBytes s.data := by
  cases s with
  | mk d e f b =>
    simp only [IStream.good, Bool.and_eq_true, Bool.not_eq_true'] at h
    obtain ⟨⟨he, hf⟩, hb⟩ := h
    subst he hf hb
    rfl

theorem IStream.read_ofBytes (d : List Byte) (n : Nat) :
    (IStream.ofBytes d).read n =
      if n ≤ d.length then (d.take n, IStream.ofBytes (d.drop n))
      else (d, ⟨[], true, true, false⟩) := by
  simp [IStream.read, IStream.ofBytes, IStream.good]

theorem IStream.read_ofBytes_append (p rest : List Byte) :
    (IStream.ofBytes (p ++ rest)).read p.length = (p, IStream.ofBytes rest) := by
  simp [IStream.read_ofBytes]

theorem IStream.read_of_not_good {s : IStream} (h : s.good = false) (n : Nat) :
    s.read n = ([], { s with failbit := true }) := by
  simp [IStream.read, h]

theorem IStream.read_fail_of_not_good {s : IStream} (h : s.good = false) (n : Nat) :
    (s.read n).2.fail = true := by
  simp [IStream.read_of_not_good h, IStream.fail]

theorem IStream.good_of_read_ok {s : IStream} {n : Nat} (h : (s.read n).2.fail = false) :
    s.good = true := by
  by_contra hg
  rw [Bool.not_eq_true] at hg
  rw [IStream.read_fail_of_not_good hg] at h
  exact Bool.noConfusion h

theorem readU32_ofBytes (big : Bool) (d : List Byte) :
    readU32 big (IStream.ofBytes d) =
      if 4 ≤ d.length then (some (decodeU32 big (d.take 4)), IStream.ofBytes (d.drop 4))
      else (none, ⟨[], true, true, false⟩) := by
  unfold readU32
  rw [IStream.read_ofBytes]
  by_cases h : 4 ≤ d.length
  · simp [h]
  · have : d.length ≠ 4 := by omega
    simp [h, this]

theorem readU32_ofBytes_append (big : Bool) (t rest : List Byte) (h : t.length = 4) :
    readU32 big (IStream.ofBytes (t ++ rest)) = (some (decodeU32 big t), IStream.ofBytes rest) := by
  rw [readU32_ofBytes]
  have h4 : 4 ≤ (t ++ rest).length := by simp [h]
  rw [if_pos h4, List.take_left' h, List.drop_left' h]

theorem readU32_of_not_good (big : Bool) {s : IStream} (h : s.good = false) :
    readU32 big s = (none, { s with failbit := true }) := by
  simp [readU32, IStream.read_of_not_good h]

theorem readU32_fail_of_not_good (big : Bool) {s : IStream} (h : s.good = false) :
    (readU32 big s).2.fail = true := by
  simp [readU32_of_not_good big h, IStream.fail]

theorem readU32_not_good_of_not_good (big : Bool) {s : IStream} (h : s.good = false) :
    (readU32 big s).2.good = false := by
  simp [readU32_of_not_good big h, IStream.good]

theorem readU32_good_of_ok (big : Bool) {s : IStream} (h : (readU32 big s).2.fail = false) :
    s.good = true := by
  by_contra hg
  rw [Bool.not_eq_true] at hg
  rw [readU32_fail_of_not_good big hg] at h
  exact Bool.noConfusion h

/-- First value read from a stream whose unread bytes start with a four-byte field:
either the field, or nothing when the stream was not good. -/
theorem readU32_head_cases (big : Bool) (s : IStream) (t rest : List Byte)
    (hd : s.data = t ++ rest) (ht : t.length = 4) :
    (readU32 big s).1 = some (decodeU32 big t) ∨ (readU32 big s).1 = none := by
  by_cases hg : s.good = true
  · left
    rw [IStream.eq_ofBytes_of_good hg, hd, readU32_ofBytes_append big t rest ht]
  · right
    rw [Bool.not_eq_true] at hg
    rw [readU32_of_not_good big hg]

end Eval.NNUE

/-! ## Lemmas on the reader -/

namespace Eval.NNUE

/-- The header reader on a well-formed header: it succeeds, stops right after the
description and reports the global hash field. -/
theorem ReadHeader_valid (a : Arch) (vb hb lb desc rest : List Byte)
    (hv : EncodesU32 a.bigEndian vb a.kVersion) (hh : hb.length = 4)
    (hl : EncodesU32 a.bigEndian lb desc.length) :
    ReadHeader a (IStream.ofBytes (vb ++ (hb ++ (lb ++ (desc ++ rest))))) =
      ⟨true, IStream.ofBytes rest, ⟨some (decodeU32 a.bigEndian hb), desc⟩⟩ := by
  obtain ⟨hv4, hvv⟩ := hv
  obtain ⟨hl4, hlv⟩ := hl
  simp only [ReadHeader, readU32_ofBytes_append _ _ _ hv4, readU32_ofBytes_append _ _ _ hh,
    readU32_ofBytes_append _ _ _ hl4, hvv, hlv, IStream.fail_ofBytes, Option.getD_some,
    IStream.read_ofBytes_append]
  simp

/-- The hash field reported by the header reader is whatever the second read produced. -/
theorem ReadHeader_hash_value (a : Arch) (s : IStream) :
    (ReadHeader a s).state.hash_value = (readU32 a.bigEndian (readU32 a.bigEndian s).2).1 := by
  unfold ReadHeader
  simp only []
  split <;> rfl

/-- The header reader rejects as soon as the version read is not `kVersion`. -/
theorem ReadHeader_version (a : Arch) (s : IStream)
    (h : (readU32 a.bigEndian s).1 ≠ some a.kVersion) : (ReadHeader a s).ok = false := by
  unfold ReadHeader
  simp only []
  rw [if_pos]
  simp [h]

/-- The tag check on a matching tag hands the rest of the stream to the component. -/
theorem Detail.ReadParameters_match {T : Type} (big : Bool) (c : Component T) (tag : Call)
    (t rest : List Byte) (pointer : T) (calls : List Call)
    (ht : EncodesU32 big t c.GetHashValue) :
    Detail.ReadParameters big c tag (IStream.ofBytes (t ++ rest)) pointer calls =
      ⟨(c.ReadParameters (IStream.ofBytes rest) pointer).1,
        (c.ReadParameters (IStream.ofBytes rest) pointer).2.1,
        ((c.ReadParameters (IStream.ofBytes rest) pointer).2.2, calls ++ [tag])⟩ := by
  obtain ⟨h4, hv⟩ := ht
  simp [Detail.ReadParameters, readU32_ofBytes_append _ _ _ h4, hv, IStream.fail_ofBytes]

/-- The tag check rejects, without calling the component, when the value read is not
the component's hash. -/
theorem Detail.ReadParameters_mismatch {T : Type} (big : Bool) (c : Component T) (tag : Call)
    (s : IStream) (pointer : T) (calls : List Call)
    (h : (readU32 big s).1 ≠ some c.GetHashValue) :
    Detail.ReadParameters big c tag s pointer calls = ⟨false, (readU32 big s).2, (pointer, calls)⟩ := by
  unfold Detail.ReadParameters
  simp only []
  rw [if_pos]
  simp [h]

end Eval.NNUE

namespace Eval.NNUE

theorem IStream.peek_of_data_nil {s : IStream} (h : s.data = []) : s.peek.1 = none := by
  unfold IStream.peek
  split
  · rw [h]
  · rfl

theorem IStream.peek_data (s : IStream) : s.peek.2.data = s.data := by
  unfold IStream.peek
  split
  · split <;> rfl
  · rfl

/-! ## The loader: accepted and rejected files -/

/-- Claim C1: a stream laid out as version `kVersion`, global hash `kHashValue`,
description length, description, feature-transformer tag, payload 1, network tag,
payload 2, where each component reader accepts its payload (returns `true` having
consumed exactly that payload) and nothing follows payload 2, is accepted:
`ReadParameters` returns `true`, and both components hold what their readers stored. -/
theorem ReadParameters_accepts_valid_blob (a : Arch) (w : World a)
    (vb hb lb desc t1 p1 t2 p2 : List Byte) (ft1 : a.FT) (net1 : a.Net) (s3 : IStream)
    (hv : EncodesU32 a.bigEndian vb a.kVersion)
    (hh : EncodesU32 a.bigEndian hb a.kHashValue)
    (hl : EncodesU32 a.bigEndian lb desc.length)
    (ht1 : EncodesU32 a.bigEndian t1 a.FeatureTransformer.GetHashValue)
    (ht2 : EncodesU32 a.bigEndian t2 a.Network.GetHashValue)
    (hft : a.FeatureTransformer.ReadParameters (IStream.ofBytes (p1 ++ (t2 ++ p2)))
      w.feature_transformer = (true, IStream.ofBytes (t2 ++ p2), ft1))
    (hnet : a.Network.ReadParameters (IStream.ofBytes p2) w.network = (true, s3, net1))
    (hend : s3.data = []) (hs3 : s3.fail = false) :
    (ReadParameters a (IStream.ofBytes (blob vb hb lb desc t1 p1 t2 p2)) w).ok = true ∧
      (ReadParameters a (IStream.ofBytes (blob vb hb lb desc t1 p1 t2 p2)) w).state.feature_transformer
        = ft1 ∧
      (ReadParameters a (IStream.ofBytes (blob vb hb lb desc t1 p1 t2 p2)) w).state.network = net1 := by
  have hp : s3.peek.1 = none := IStream.peek_of_data_nil hend
  simp [blob, ReadParameters, ReadHeader_valid a vb hb lb desc _ hv hh.1 hl, hh.2,
    Detail.ReadParameters_match _ _ _ t1 _ _ _ ht1, hft,
    Detail.ReadParameters_match _ _ _ t2 _ _ _ ht2, hnet, hs3, hp]

/-- Witness for C1 on the demo architecture: the eight-part file is accepted. -/
theorem ReadParameters_accepts_valid_blob_witness :
    (ReadParameters demoArch (IStream.ofBytes
      (blob demoVersion demoHash demoLen demoDesc demoTag1 demoPayload1 demoTag2 demoPayload2))
      demoWorld).ok = true ∧
    (ReadParameters demoArch (IStream.ofBytes
      (blob demoVersion demoHash demoLen demoDesc demoTag1 demoPayload1 demoTag2 demoPayload2))
      demoWorld).state.feature_transformer = demoPayload1 ∧
    (ReadParameters demoArch (IStream.ofBytes
      (blob demoVersion demoHash demoLen demoDesc demoTag1 demoPayload1 demoTag2 demoPayload2))
      demoWorld).state.network = demoPayload2 :=
  ReadParameters_accepts_valid_blob demoArch demoWorld demoVersion demoHash demoLen demoDesc
    demoTag1 demoPayload1 demoTag2 demoPayload2 demoPayload1 demoPayload2 (IStream.ofBytes [])
    (by decide) (by decide) (by decide) (by decide) (by decide) rfl rfl rfl rfl

/-- Claim C4: a stream whose first four bytes are a version other than `kVersion` is
rejected by `ReadHeader`, hence by `ReadParameters`, whatever follows and whatever the
state bits of the stream are. -/
theorem version_mismatch_rejected (a : Arch) (w : World a) (s : IStream)
    (vb rest : List Byte) (hd : s.data = vb ++ rest) (h4 : vb.length = 4)
    (hne : decodeU32 a.bigEndian vb ≠ a.kVersion) :
    (ReadHeader a s).ok = false ∧ (ReadParameters a s w).ok = false := by
  have hver : (readU32 a.bigEndian s).1 ≠ some a.kVersion := by
    rcases readU32_head_cases a.bigEndian s vb rest hd h4 with h | h
    · rw [h]
      intro hc
      exact hne (Option.some.inj hc)
    · rw [h]
      exact fun hc => Option.noConfusion hc
  have hhead : (ReadHeader a s).ok = false := ReadHeader_version a s hver
  refine ⟨hhead, ?_⟩
  simp [ReadParameters, hhead]

/-- Witness for C4: the demo file with the first version byte altered is rejected. -/
theorem version_mismatch_rejected_witness :
    (ReadHeader demoArch (IStream.ofBytes ([0x17, 0x2F, 0xF3, 0x7A] ++
      (demoHash ++ (demoLen ++ demoDesc))))).ok = false ∧
    (ReadParameters demoArch (IStream.ofBytes ([0x17, 0x2F, 0xF3, 0x7A] ++
      (demoHash ++ (demoLen ++ demoDesc)))) demoWorld).ok = false :=
  version_mismatch_rejected demoArch demoWorld _ [0x17, 0x2F, 0xF3, 0x7A]
    (demoHash ++ (demoLen ++ demoDesc)) rfl rfl (by decide)

/-- Claim C5: a stream that starts with the right version followed by a global hash
other than `kHashValue` is rejected, and neither component is asked to read: the
global state, ghost call log included, is returned untouched. -/
theorem global_hash_mismatch_rejected (a : Arch) (w : World a) (s : IStream)
    (vb hb rest : List Byte) (hd : s.data = vb ++ (hb ++ rest))
    (hv : EncodesU32 a.bigEndian vb a.kVersion) (h4 : hb.length = 4)
    (hne : decodeU32 a.bigEndian hb ≠ a.kHashValue) :
    (ReadParameters a s w).ok = false ∧ (ReadParameters a s w).state = w := by
  have hhash : (ReadHeader a s).state.hash_value ≠ some a.kHashValue := by
    rw [ReadHeader_hash_value]
    by_cases hg : s.good = true
    · rw [IStream.eq_ofBytes_of_good hg, hd, readU32_ofBytes_append _ _ _ hv.1,
        readU32_ofBytes_append _ _ _ h4]
      intro hc
      exact hne (Option.some.inj hc)
    · rw [Bool.not_eq_true] at hg
      rw [readU32_of_not_good _ (readU32_not_good_of_not_good _ hg)]
      exact fun hc => Option.noConfusion hc
  unfold ReadParameters
  simp only []
  split
  · exact ⟨rfl, rfl⟩
  · rw [if_pos (by simpa using hhash)]
    exact ⟨rfl, rfl⟩

/-- Witness for C5: the demo header with the first byte of the global hash altered. -/
theorem global_hash_mismatch_rejected_witness :
    (ReadParameters demoArch (IStream.ofBytes (demoVersion ++ ([0xEF, 0xA6, 0x5A, 0x3E] ++
      (demoLen ++ demoDesc)))) demoWorld).ok = false ∧
    (ReadParameters demoArch (IStream.ofBytes (demoVersion ++ ([0xEF, 0xA6, 0x5A, 0x3E] ++
      (demoLen ++ demoDesc)))) demoWorld).state = demoWorld :=
  global_hash_mismatch_rejected demoArch demoWorld _ demoVersion [0xEF, 0xA6, 0x5A, 0x3E]
    (demoLen ++ demoDesc) rfl (by decide) rfl (by decide)

end Eval.NNUE

namespace Eval.NNUE

theorem decodeLE_cons (b : Byte) (bs : List Byte) :
    decodeLE (b :: bs) = b.val + 256 * decodeLE bs := rfl

theorem decodeLE_single_byte (pre post : List Byte) (b c : Byte) (h : b ≠ c) :
    decodeLE (pre ++ b :: post) ≠ decodeLE (pre ++ c :: post) := by
  induction pre with
  | nil =>
    rw [List.nil_append, List.nil_append, decodeLE_cons, decodeLE_cons]
    intro hc
    apply h
    apply Fin.ext
    omega
  | cons x pre ih =>
    rw [List.cons_append, List.cons_append, decodeLE_cons, decodeLE_cons]
    intro hc
    apply ih
    omega

theorem decodeU32_single_byte (big : Bool) {t u : List Byte} (h : SingleByteChange t u) :
    decodeU32 big t ≠ decodeU32 big u := by
  obtain ⟨pre, b, c, post, hbc, rfl, rfl⟩ := h
  cases big with
  | false => simpa [decodeU32] using decodeLE_single_byte pre post b c hbc
  | true =>
    have hr : ∀ x : Byte, (pre ++ x :: post).reverse = post.reverse ++ x :: pre.reverse := by
      intro x
      simp
    simp only [decodeU32, if_true, hr]
    exact decodeLE_single_byte post.reverse pre.reverse b c hbc

theorem SingleByteChange.length_eq {t u : List Byte} (h : SingleByteChange t u) :
    u.length = t.length := by
  obtain ⟨pre, b, c, post, _, rfl, rfl⟩ := h
  simp

/-- Changing one byte of a tag that carried the hash `h` yields a mismatching tag. -/
theorem TagMismatch.of_single_byte (big : Bool) {t u : List Byte} {h : Nat}
    (ht : EncodesU32 big t h) (hc : SingleByteChange t u) : TagMismatch big u h := by
  refine ⟨by rw [hc.length_eq, ht.1], ?_⟩
  intro hu
  exact decodeU32_single_byte big hc (ht.2.trans hu.symm)

theorem readU32_ne_of_mismatch (big : Bool) (s : IStream) (t rest : List Byte) (h : Nat)
    (hd : s.data = t ++ rest) (hm : TagMismatch big t h) : (readU32 big s).1 ≠ some h := by
  rcases readU32_head_cases big s t rest hd hm.1 with hr | hr
  · rw [hr]
    intro hc
    exact hm.2 (Option.some.inj hc)
  · rw [hr]
    exact fun hc => Option.noConfusion hc

/-- Claim C2: after a valid header, a component hash tag that differs from the
component's declared hash makes `ReadParameters` return `false` without invoking that
component's reader. (1) A mismatching feature-transformer tag: the load fails and the
global state, ghost call log included, is untouched. (2) A matching feature-transformer
tag, then a mismatching tag where the feature transformer's reader leaves the stream:
the load fails, the log gained only the feature transformer's read, and the network is
untouched. (3) Changing any single byte of a tag that carried the right hash yields a
mismatching tag, so (1) and (2) apply to it. -/
theorem component_hash_mismatch_rejected (a : Arch) (w : World a) (vb hb lb desc : List Byte)
    (hv : EncodesU32 a.bigEndian vb a.kVersion)
    (hh : EncodesU32 a.bigEndian hb a.kHashValue)
    (hl : EncodesU32 a.bigEndian lb desc.length) :
    (∀ t1 rest : List Byte, TagMismatch a.bigEndian t1 a.FeatureTransformer.GetHashValue →
      (ReadParameters a (IStream.ofBytes (vb ++ (hb ++ (lb ++ (desc ++ (t1 ++ rest)))))) w).ok
        = false ∧
      (ReadParameters a (IStream.ofBytes (vb ++ (hb ++ (lb ++ (desc ++ (t1 ++ rest)))))) w).state
        = w) ∧
    (∀ t1 rest t2 rest2 : List Byte,
      EncodesU32 a.bigEndian t1 a.FeatureTransformer.GetHashValue →
      (a.FeatureTransformer.ReadParameters (IStream.ofBytes rest) w.feature_transformer).2.1.data
        = t2 ++ rest2 →
      TagMismatch a.bigEndian t2 a.Network.GetHashValue →
      (ReadParameters a (IStream.ofBytes (vb ++ (hb ++ (lb ++ (desc ++ (t1 ++ rest)))))) w).ok
        = false ∧
      (ReadParameters a (IStream.ofBytes (vb ++ (hb ++ (lb ++ (desc ++ (t1 ++ rest)))))) w).state.calls
        = w.calls ++ [Call.FeatureTransformer_ReadParameters] ∧
      (ReadParameters a (IStream.ofBytes (vb ++ (hb ++ (lb ++ (desc ++ (t1 ++ rest)))))) w).state.network
        = w.network) ∧
    (∀ (t u : List Byte) (h : Nat), EncodesU32 a.bigEndian t h → SingleByteChange t u →
      TagMismatch a.bigEndian u h) := by
  refine ⟨?_, ?_, ?_⟩
  · intro t1 rest hm
    have hne := readU32_ne_of_mismatch a.bigEndian (IStream.ofBytes (t1 ++ rest)) t1 rest _ rfl hm
    simp [ReadParameters, ReadHeader_valid a vb hb lb desc _ hv hh.1 hl, hh.2,
      Detail.ReadParameters_mismatch _ _ _ _ _ _ hne]
  · intro t1 rest t2 rest2 ht1 hd hm
    have hne := readU32_ne_of_mismatch a.bigEndian _ t2 rest2 _ hd hm
    simp only [ReadParameters, ReadHeader_valid a vb hb lb desc _ hv hh.1 hl, hh.2,
      Detail.ReadParameters_match _ _ _ t1 _ _ _ ht1,
      Detail.ReadParameters_mismatch _ _ _ _ _ _ hne]
    cases (a.FeatureTransformer.ReadParameters (IStream.ofBytes rest) w.feature_transformer).1
      <;> simp
  · intro t u h ht hc
    exact TagMismatch.of_single_byte a.bigEndian ht hc

/-- Witness for C2: in the demo file, the network tag with its last byte changed is
rejected after the feature transformer has read, and the network reader is not called. -/
theorem component_hash_mismatch_rejected_witness :
    (ReadParameters demoArch (IStream.ofBytes (demoVersion ++ (demoHash ++ (demoLen ++
      (demoDesc ++ (demoTag1 ++ (demoPayload1 ++ ([0x56, 0x71, 0x33, 0x64] ++ demoPayload2))))))))
      demoWorld).ok = false ∧
    (ReadParameters demoArch (IStream.ofBytes (demoVersion ++ (demoHash ++ (demoLen ++
      (demoDesc ++ (demoTag1 ++ (demoPayload1 ++ ([0x56, 0x71, 0x33, 0x64] ++ demoPayload2))))))))
      demoWorld).state.calls = demoWorld.calls ++ [Call.FeatureTransformer_ReadParameters] ∧
    (ReadParameters demoArch (IStream.ofBytes (demoVersion ++ (demoHash ++ (demoLen ++
      (demoDesc ++ (demoTag1 ++ (demoPayload1 ++ ([0x56, 0x71, 0x33, 0x64] ++ demoPayload2))))))))
      demoWorld).state.network = demoWorld.network :=
  (component_hash_mismatch_rejected demoArch demoWorld demoVersion demoHash demoLen demoDesc
    (by decide) (by decide) (by decide)).2.1 demoTag1
    (demoPayload1 ++ ([0x56, 0x71, 0x33, 0x64] ++ demoPayload2)) [0x56, 0x71, 0x33, 0x64]
    demoPayload2 (by decide) rfl
    ((component_hash_mismatch_rejected demoArch demoWorld demoVersion demoHash demoLen demoDesc
      (by decide) (by decide) (by decide)).2.2 demoTag2 [0x56, 0x71, 0x33, 0x64] _ (by decide)
      ⟨[0x56, 0x71, 0x33], 0x63, 0x64, [], by decide, rfl, rfl⟩)

end Eval.NNUE

/-! ## Exact consumption of the stream -/

namespace Eval.NNUE

theorem IStream.read_ofBytes_ok {d : List Byte} {n : Nat}
    (h : ((IStream.ofBytes d).read n).2.fail = false) :
    n ≤ d.length ∧ (IStream.ofBytes d).read n = (d.take n, IStream.ofBytes (d.drop n)) := by
  rw [IStream.read_ofBytes] at h ⊢
  by_cases hn : n ≤ d.length
  · exact ⟨hn, by rw [if_pos hn]⟩
  · rw [if_neg hn] at h
    exact Bool.noConfusion h

theorem readU32_ofBytes_ok (big : Bool) {d : List Byte}
    (h : (readU32 big (IStream.ofBytes d)).2.fail = false) :
    4 ≤ d.length ∧
      readU32 big (IStream.ofBytes d) =
        (some (decodeU32 big (d.take 4)), IStream.ofBytes (d.drop 4)) := by
  rw [readU32_ofBytes] at h ⊢
  by_cases hn : 4 ≤ d.length
  · exact ⟨hn, by rw [if_pos hn]⟩
  · rw [if_neg hn] at h
    exact Bool.noConfusion h

/-- A successful header read on a fresh stream: the twelve fixed bytes and the
announced description were present, and the stream stands right after them. -/
theorem ReadHeader_ok_ofBytes (a : Arch) (d : List Byte)
    (h : (ReadHeader a (IStream.ofBytes d)).ok = true) :
    12 ≤ d.length ∧
      12 + decodeU32 a.bigEndian ((d.drop 8).take 4) ≤ d.length ∧
      (ReadHeader a (IStream.ofBytes d)).stream =
        IStream.ofBytes (d.drop (12 + decodeU32 a.bigEndian ((d.drop 8).take 4))) := by
  unfold ReadHeader at h ⊢
  simp only [] at h ⊢
  by_cases hc : ((readU32 a.bigEndian (readU32 a.bigEndian (readU32 a.bigEndian
      (IStream.ofBytes d)).2).2).2.fail || (readU32 a.bigEndian (IStream.ofBytes d)).1
        != some a.kVersion) = true
  · rw [if_pos hc] at h
    exact Bool.noConfusion h
  · rw [if_neg hc] at h ⊢
    rw [Bool.not_eq_true, Bool.or_eq_false_iff] at hc
    obtain ⟨hf3, _⟩ := hc
    have hg2 := readU32_good_of_ok _ hf3
    have hf2 : (readU32 a.bigEndian (readU32 a.bigEndian (IStream.ofBytes d)).2).2.fail = false := by
      simp only [IStream.good, Bool.and_eq_true, Bool.not_eq_true'] at hg2
      simp [IStream.fail, hg2.1.2, hg2.2]
    have hg1 := readU32_good_of_ok _ hf2
    have hf1 : (readU32 a.bigEndian (IStream.ofBytes d)).2.fail = false := by
      simp only [IStream.good, Bool.and_eq_true, Bool.not_eq_true'] at hg1
      simp [IStream.fail, hg1.1.2, hg1.2]
    obtain ⟨l1, e1⟩ := readU32_ofBytes_ok _ hf1
    rw [e1] at hf2 hf3 h ⊢
    obtain ⟨l2, e2⟩ := readU32_ofBytes_ok _ hf2
    rw [e2] at hf3 h ⊢
    obtain ⟨l3, e3⟩ := readU32_ofBytes_ok _ hf3
    rw [e3] at h ⊢
    simp only [List.length_drop, List.drop_drop, Option.getD_some, Nat.reduceAdd] at l2 l3 h ⊢
    have hr : ((IStream.ofBytes (List.drop 12 d)).read
        (decodeU32 a.bigEndian (List.take 4 (List.drop 8 d)))).2.fail = false := by
      simpa using h
    obtain ⟨l4, e4⟩ := IStream.read_ofBytes_ok hr
    rw [e4]
    simp only [List.length_drop, List.drop_drop] at l4 ⊢
    refine ⟨by omega, by omega, ?_⟩
    trivial


/-- A successful tag check and fixed-size component read on a fresh stream: the tag and
the whole payload were present, and the stream stands right after the payload. -/
theorem Detail.ReadParameters_ok_ofBytes {T : Type} (big : Bool) (c : Component T) (tag : Call)
    (n : Nat) (hfix : c.ReadsFixed n) (d : List Byte) (pointer : T) (calls : List Call)
    (h : (Detail.ReadParameters big c tag (IStream.ofBytes d) pointer calls).ok = true) :
    4 + n ≤ d.length ∧
      (Detail.ReadParameters big c tag (IStream.ofBytes d) pointer calls).stream =
        IStream.ofBytes (d.drop (4 + n)) := by
  unfold Detail.ReadParameters at h ⊢
  simp only [] at h ⊢
  by_cases hc : ((readU32 big (IStream.ofBytes d)).2.fail ||
      (readU32 big (IStream.ofBytes d)).1 != some c.GetHashValue) = true
  · rw [if_pos hc] at h
    exact Bool.noConfusion h
  · rw [if_neg hc] at h ⊢
    rw [Bool.not_eq_true, Bool.or_eq_false_iff] at hc
    obtain ⟨l1, e1⟩ := readU32_ofBytes_ok _ hc.1
    rw [e1] at h ⊢
    simp only [] at h ⊢
    obtain ⟨hok, hst⟩ := hfix (IStream.ofBytes (d.drop 4)) pointer
    rw [hok] at h
    rw [hst]
    have hr : ((IStream.ofBytes (d.drop 4)).read n).2.fail = false := by simpa using h
    obtain ⟨l2, e2⟩ := IStream.read_ofBytes_ok hr
    rw [e2]
    simp only [List.length_drop, List.drop_drop] at l2 ⊢
    refine ⟨by omega, ?_⟩
    trivial

/-- Stage by stage account of a successful load: the header parsed and carried the
global hash, both tagged component reads succeeded, and after them the stream had not
failed and `peek` met the end of the data. -/
theorem ReadParameters_ok_iff (a : Arch) (s : IStream) (w : World a) :
    (ReadParameters a s w).ok = true ↔
      (ReadHeader a s).ok = true ∧
      (ReadHeader a s).state.hash_value = some a.kHashValue ∧
      (Detail.ReadParameters a.bigEndian a.FeatureTransformer
        Call.FeatureTransformer_ReadParameters (ReadHeader a s).stream
        w.feature_transformer w.calls).ok = true ∧
      (Detail.ReadParameters a.bigEndian a.Network Call.Network_ReadParameters
        (Detail.ReadParameters a.bigEndian a.FeatureTransformer
          Call.FeatureTransformer_ReadParameters (ReadHeader a s).stream
          w.feature_transformer w.calls).stream w.network
        (Detail.ReadParameters a.bigEndian a.FeatureTransformer
          Call.FeatureTransformer_ReadParameters (ReadHeader a s).stream
          w.feature_transformer w.calls).state.2).ok = true ∧
      (Detail.ReadParameters a.bigEndian a.Network Call.Network_ReadParameters
        (Detail.ReadParameters a.bigEndian a.FeatureTransformer
          Call.FeatureTransformer_ReadParameters (ReadHeader a s).stream
          w.feature_transformer w.calls).stream w.network
        (Detail.ReadParameters a.bigEndian a.FeatureTransformer
          Call.FeatureTransformer_ReadParameters (ReadHeader a s).stream
          w.feature_transformer w.calls).state.2).stream.fail = false ∧
      (Detail.ReadParameters a.bigEndian a.Network Call.Network_ReadParameters
        (Detail.ReadParameters a.bigEndian a.FeatureTransformer
          Call.FeatureTransformer_ReadParameters (ReadHeader a s).stream
          w.feature_transformer w.calls).stream w.network
        (Detail.ReadParameters a.bigEndian a.FeatureTransformer
          Call.FeatureTransformer_ReadParameters (ReadHeader a s).stream
          w.feature_transformer w.calls).state.2).stream.peek.1 = none := by
  unfold ReadParameters
  simp only []
  split_ifs <;> simp_all

/-- Unread bytes after a load: those left by the network's tagged read, when the load
got that far. -/
theorem ReadParameters_ok_data (a : Arch) (s : IStream) (w : World a)
    (h : (ReadParameters a s w).ok = true) :
    (ReadParameters a s w).stream.data =
      (Detail.ReadParameters a.bigEndian a.Network Call.Network_ReadParameters
        (Detail.ReadParameters a.bigEndian a.FeatureTransformer
          Call.FeatureTransformer_ReadParameters (ReadHeader a s).stream
          w.feature_transformer w.calls).stream w.network
        (Detail.ReadParameters a.bigEndian a.FeatureTransformer
          Call.FeatureTransformer_ReadParameters (ReadHeader a s).stream
          w.feature_transformer w.calls).state.2).stream.data := by
  unfold ReadParameters at h ⊢
  simp only [] at h ⊢
  split_ifs at h ⊢
  all_goals first | exact Bool.noConfusion h | exact IStream.peek_data _

theorem IStream.peek_ofBytes_none {d : List Byte} (h : (IStream.ofBytes d).peek.1 = none) :
    d = [] := by
  cases d with
  | nil => rfl
  | cons b bs => simp [IStream.peek, IStream.ofBytes, IStream.good] at h

/-- Length of an accepted file when both component readers take payloads of fixed
size: twelve header bytes, the announced description, and two tagged payloads; the
stream is left with nothing unread. -/
theorem ReadParameters_ok_length (a : Arch) (n1 n2 : Nat)
    (hft : a.FeatureTransformer.ReadsFixed n1) (hnet : a.Network.ReadsFixed n2)
    (d : List Byte) (w : World a)
    (h : (ReadParameters a (IStream.ofBytes d) w).ok = true) :
    12 ≤ d.length ∧
      d.length = 20 + decodeU32 a.bigEndian ((d.drop 8).take 4) + n1 + n2 ∧
      (ReadParameters a (IStream.ofBytes d) w).stream.data = [] := by
  have hdata := ReadParameters_ok_data a _ w h
  obtain ⟨c1, _, c3, c4, _, c6⟩ := (ReadParameters_ok_iff a _ w).1 h
  obtain ⟨l0, l1, e1⟩ := ReadHeader_ok_ofBytes a d c1
  rw [e1] at c3 c4 c6 hdata
  obtain ⟨l2, e2⟩ := Detail.ReadParameters_ok_ofBytes _ _ _ n1 hft _ _ _ c3
  rw [e2] at c4 c6 hdata
  obtain ⟨l3, e3⟩ := Detail.ReadParameters_ok_ofBytes _ _ _ n2 hnet _ _ _ c4
  rw [e3] at c6 hdata
  have hnil := IStream.peek_ofBytes_none c6
  rw [hdata]
  have hlen := congrArg List.length hnil
  simp only [List.length_drop, List.length_nil] at l2 l3 hlen
  refine ⟨l0, by omega, ?_⟩
  exact hnil

/-- No accepted file is a proper prefix of another: with fixed-size component
readers, bytes appended to an accepted file make it rejected. -/
theorem ReadParameters_append_rejected (a : Arch) (n1 n2 : Nat)
    (hft : a.FeatureTransformer.ReadsFixed n1) (hnet : a.Network.ReadsFixed n2)
    (d extra : List Byte) (w v : World a)
    (hok : (ReadParameters a (IStream.ofBytes d) w).ok = true) (hextra : extra ≠ []) :
    (ReadParameters a (IStream.ofBytes (d ++ extra)) v).ok = false := by
  obtain ⟨l0, l1, _⟩ := ReadParameters_ok_length a n1 n2 hft hnet d w hok
  by_contra hc
  rw [Bool.not_eq_false] at hc
  obtain ⟨_, m1, _⟩ := ReadParameters_ok_length a n1 n2 hft hnet (d ++ extra) v hc
  have h8 : 8 ≤ d.length := by omega
  have h4 : 4 ≤ (d.drop 8).length := by
    rw [List.length_drop]
    omega
  rw [List.drop_append_of_le_length h8, List.take_append_of_le_length h4, List.length_append] at m1
  have h0 : extra.length = 0 := by omega
  exact hextra (List.length_eq_zero.1 h0)

/-- Claim C6: with component readers that fail on a payload shorter than the fixed
size they require, every proper prefix of a file on which `ReadParameters` succeeds is
rejected; more generally any file that ends before the twelve header bytes, or before
the end of the second payload as placed by the description length it announces (so
inside the description, a hash tag or a payload), is rejected. -/
theorem truncated_file_rejected (a : Arch) (n1 n2 : Nat)
    (hft : a.FeatureTransformer.ReadsFixed n1) (hnet : a.Network.ReadsFixed n2)
    (d pre : List Byte) (w v : World a)
    (hok : (ReadParameters a (IStream.ofBytes d) w).ok = true)
    (hpre : pre <+: d) (hne : pre ≠ d) :
    (ReadParameters a (IStream.ofBytes pre) v).ok = false ∧
      ∀ (e : List Byte) (u : World a),
        (e.length < 12 ∨
          e.length < 20 + decodeU32 a.bigEndian ((e.drop 8).take 4) + n1 + n2) →
        (ReadParameters a (IStream.ofBytes e) u).ok = false := by
  constructor
  · obtain ⟨t, rfl⟩ := hpre
    have ht : t ≠ [] := by
      intro h0
      apply hne
      rw [h0, List.append_nil]
    by_contra hc
    rw [Bool.not_eq_false] at hc
    have hrej := ReadParameters_append_rejected a n1 n2 hft hnet pre t v w hc ht
    rw [hok] at hrej
    exact Bool.noConfusion hrej
  · intro e u hshort
    by_contra hc
    rw [Bool.not_eq_false] at hc
    obtain ⟨l0, l1, _⟩ := ReadParameters_ok_length a n1 n2 hft hnet e u hc
    omega

/-- Witness for C6: the demo file without its last byte, and an eleven-byte file. -/
theorem truncated_file_rejected_witness :
    (ReadParameters demoArch (IStream.ofBytes
      (blob demoVersion demoHash demoLen demoDesc demoTag1 demoPayload1 demoTag2 []))
      demoWorld).ok = false ∧
    (ReadParameters demoArch (IStream.ofBytes (demoVersion ++ (demoHash ++ [2, 0, 0])))
      demoWorld).ok = false :=
  ⟨(truncated_file_rejected demoArch 2 1 (fun _ _ => ⟨rfl, rfl⟩) (fun _ _ => ⟨rfl, rfl⟩)
      (blob demoVersion demoHash demoLen demoDesc demoTag1 demoPayload1 demoTag2 demoPayload2)
      (blob demoVersion demoHash demoLen demoDesc demoTag1 demoPayload1 demoTag2 [])
      demoWorld demoWorld (by decide) ⟨demoPayload2, by decide⟩ (by decide)).1,
    (truncated_file_rejected demoArch 2 1 (fun _ _ => ⟨rfl, rfl⟩) (fun _ _ => ⟨rfl, rfl⟩)
      (blob demoVersion demoHash demoLen demoDesc demoTag1 demoPayload1 demoTag2 demoPayload2)
      (blob demoVersion demoHash demoLen demoDesc demoTag1 demoPayload1 demoTag2 [])
      demoWorld demoWorld (by decide) ⟨demoPayload2, by decide⟩ (by decide)).2
      (demoVersion ++ (demoHash ++ [2, 0, 0])) demoWorld (Or.inl (by decide))⟩

end Eval.NNUE

/-! ## The score cache -/

namespace Eval.NNUE

/-- Claim C7: when the accumulator of the position has `computed_score` set,
`ComputeScore` without refresh returns exactly the cached `score`, makes no call to
`Transform` or `Propagate` (the global state and its call log are returned as they
were), and leaves the position, accumulator included, unchanged. -/
theorem ComputeScore_cached (a : Arch) (w : World a) (pos : a.Pos)
    (h : pos.accumulator.computed_score = true) :
    ComputeScore a w pos false = ⟨pos.accumulator.score, w, pos⟩ := by
  simp [ComputeScore, h]

/-- Witness for C7: a demo position with cached score 42. -/
theorem ComputeScore_cached_witness :
    ComputeScore demoArch demoWorld ⟨(3 : Int), ⟨some 48, 42, true⟩⟩ false =
      ⟨42, demoWorld, ⟨(3 : Int), ⟨some 48, 42, true⟩⟩⟩ :=
  ComputeScore_cached demoArch demoWorld ⟨(3 : Int), ⟨some 48, 42, true⟩⟩ rfl

/-- Claim C8: when a refresh is forced or `computed_score` is clear, `ComputeScore`
calls `Transform` on the position with the given refresh flag, then `Propagate` on the
transformed buffer, and returns `output[0] / FV_SCALE` (truncated division); the
position it leaves is the one `Transform` left with `score` set to the returned value
and `computed_score` set. -/
theorem ComputeScore_recompute (a : Arch) (w : World a) (pos : a.Pos) (refresh : Bool)
    (h : refresh = true ∨ pos.accumulator.computed_score = false) :
    (ComputeScore a w pos refresh).value =
        Int.tdiv (a.Propagate w.network (a.Transform w.feature_transformer pos refresh).1 0)
          a.FV_SCALE ∧
      (ComputeScore a w pos refresh).world.calls =
        w.calls ++ [Call.Transform refresh, Call.Propagate] ∧
      (ComputeScore a w pos refresh).pos.accumulator.score =
        (ComputeScore a w pos refresh).value ∧
      (ComputeScore a w pos refresh).pos.accumulator.computed_score = true ∧
      (ComputeScore a w pos refresh).pos.accumulator.accumulation =
        (a.Transform w.feature_transformer pos refresh).2.accumulator.accumulation ∧
      (ComputeScore a w pos refresh).pos.board =
        (a.Transform w.feature_transformer pos refresh).2.board := by
  have hc : (!refresh && pos.accumulator.computed_score) = false := by
    rcases h with h | h <;> simp [h]
  simp [ComputeScore, hc]

/-- Witness for C8: the demo position on a fresh frame, evaluated with loaded weights. -/
theorem ComputeScore_recompute_witness :
    (ComputeScore demoArch demoLoaded demoPos false).value
        = Int.tdiv (-341) 16 ∧
      (ComputeScore demoArch demoLoaded demoPos false).world.calls
        = [Call.Transform false, Call.Propagate] ∧
      (ComputeScore demoArch demoLoaded demoPos false).pos.accumulator.score
        = (ComputeScore demoArch demoLoaded demoPos false).value ∧
      (ComputeScore demoArch demoLoaded demoPos false).pos.accumulator.computed_score
        = true ∧
      (ComputeScore demoArch demoLoaded demoPos false).pos.accumulator.accumulation
        = some (-112) ∧
      (ComputeScore demoArch demoLoaded demoPos false).pos.board
        = (-7 : Int) :=
  ComputeScore_recompute demoArch demoLoaded demoPos false
    (Or.inr rfl)

/-- Claim C9: for every position and every initial accumulator state, a second
`evaluate` right after a first one returns the same value, makes no call into the model
components (the call log is the one the first call left) and leaves the position as the
first call left it. -/
theorem evaluate_twice (a : Arch) (w : World a) (pos : a.Pos) :
    (evaluate a (evaluate a w pos).world (evaluate a w pos).pos).value = (evaluate a w pos).value ∧
      (evaluate a (evaluate a w pos).world (evaluate a w pos).pos).world = (evaluate a w pos).world ∧
      (evaluate a (evaluate a w pos).world (evaluate a w pos).pos).pos = (evaluate a w pos).pos := by
  cases h : pos.accumulator.computed_score <;> simp [evaluate, ComputeScore, h]

end Eval.NNUE

/-! ## Entry points, initialisation and diagnostics -/

namespace Eval.NNUE

/-- Claim C11: `compute_eval` always recomputes, whatever the accumulator holds: it
calls `Transform` with refresh set and then `Propagate`, returns the fresh
`output[0] / FV_SCALE` and leaves it in `accumulator.score` with `computed_score`
set, so the value comes from that computation and not from the cache; and `evaluate`
never passes refresh: the calls it adds are none, or `Transform` without refresh
followed by `Propagate`. -/
theorem compute_eval_forces_refresh (a : Arch) (w : World a) (pos : a.Pos) :
    (compute_eval a w pos).value =
        Int.tdiv (a.Propagate w.network (a.Transform w.feature_transformer pos true).1 0)
          a.FV_SCALE ∧
      (compute_eval a w pos).world.calls = w.calls ++ [Call.Transform true, Call.Propagate] ∧
      (compute_eval a w pos).pos.accumulator.score = (compute_eval a w pos).value ∧
      (compute_eval a w pos).pos.accumulator.computed_score = true ∧
      ((evaluate a w pos).world.calls = w.calls ∨
        (evaluate a w pos).world.calls = w.calls ++ [Call.Transform false, Call.Propagate]) := by
  refine ⟨?_, ?_, ?_, ?_, ?_⟩
  · simp [compute_eval, ComputeScore]
  · simp [compute_eval, ComputeScore]
  · simp [compute_eval, ComputeScore]
  · simp [compute_eval, ComputeScore]
  · cases h : pos.accumulator.computed_score <;> simp [evaluate, ComputeScore, h]

/-- Claim C14: `update_eval` only delegates to the feature transformer's
`UpdateAccumulatorIfPossible`: the position it leaves is exactly the one that call
left (this file writes neither `score` nor `computed_score` on the way), the only call
it adds is that one (no `Transform`, no `Propagate`), and the model components are as
before. -/
theorem update_eval_only_delegates (a : Arch) (w : World a) (pos : a.Pos) :
    (update_eval a w pos).2 = a.UpdateAccumulatorIfPossible w.feature_transformer pos ∧
      (update_eval a w pos).1.calls = w.calls ++ [Call.UpdateAccumulatorIfPossible] ∧
      (update_eval a w pos).1.feature_transformer = w.feature_transformer ∧
      (update_eval a w pos).1.network = w.network :=
  ⟨rfl, rfl, rfl, rfl⟩

/-- Claim C15: from any prior global state, `Initialize` leaves both components equal
to the all-zero object, whatever they held, and running it twice gives the state that
running it once gives. -/
theorem Initialize_zero_idempotent (a : Arch) (w : World a) :
    (Initialize a w).feature_transformer = a.FeatureTransformer.zero ∧
      (Initialize a w).network = a.Network.zero ∧
      Initialize a (Initialize a w) = Initialize a w :=
  ⟨rfl, rfl, rfl⟩

/-- Counterexample to C18 as stated: for the demo architecture the architecture string
is not the bare concatenation of the two structure strings. -/
theorem GetArchitectureString_not_bare_concat :
    GetArchitectureString demoArch = "Features=HalfKP,Network=AffineTransform" ∧
      GetArchitectureString demoArch ≠
        demoArch.FeatureTransformer.GetStructureString ++
          demoArch.Network.GetStructureString := by
  decide

/-- Claim C18, amended: `GetArchitectureString` returns the two structure strings in
order, each behind its label: `Features=`, the feature transformer's string,
`,Network=`, the network's string; it is therefore eighteen characters longer than the
two strings together. -/
theorem GetArchitectureString_labelled (a : Arch) :
    GetArchitectureString a =
        "Features=" ++ a.FeatureTransformer.GetStructureString ++ ",Network=" ++
          a.Network.GetStructureString ∧
      (GetArchitectureString a).length =
        a.FeatureTransformer.GetStructureString.length +
          a.Network.GetStructureString.length + 18 := by
  refine ⟨rfl, ?_⟩
  simp only [GetArchitectureString, String.length_append]
  have h1 : "Features=".length = 9 := by decide
  have h2 : ",Network=".length = 9 := by decide
  omega

end Eval.NNUE

/-! ## Scaling of the network output -/

namespace Eval.NNUE

/-- The product of the truncated quotient and the divisor is no larger in magnitude
than the dividend. -/
theorem abs_tdiv_mul_le (r s : Int) : |Int.tdiv r s * s| ≤ |r| := by
  rw [Int.abs_eq_natAbs, Int.abs_eq_natAbs, Int.natAbs_mul, Int.natAbs_tdiv]
  exact_mod_cast Nat.div_mul_le_self r.natAbs s.natAbs

/-- For a negative dividend that a positive divisor does not divide, the truncated
quotient is one more than the floor. -/
theorem tdiv_eq_floor_add_one {r s : Int} (hs : 0 < s) (hr : r < 0) (hd : ¬ s ∣ r) :
    Int.tdiv r s = r / s + 1 := by
  have hx : 0 ≤ -r := by omega
  have h1 : Int.tdiv r s = -((-r) / s) := by
    have h := Int.neg_tdiv (-r) s
    rw [Int.neg_neg] at h
    rw [h, Int.tdiv_eq_ediv hx (Int.le_of_lt hs)]
  have hm0 : (-r) % s ≠ 0 := by
    intro h0
    apply hd
    have hdvd : s ∣ -r := Int.dvd_of_emod_eq_zero h0
    exact (Int.dvd_neg.1 hdvd)
  have hm1 : 0 ≤ (-r) % s := Int.emod_nonneg _ (Int.ne_of_gt hs)
  have hm2 : (-r) % s < s := Int.emod_lt_of_pos _ hs
  have hdm : s * ((-r) / s) + (-r) % s = -r := Int.ediv_add_emod (-r) s
  have hq : r / s = -((-r) / s) - 1 ∧ r % s = s - (-r) % s := by
    rw [Int.ediv_emod_unique hs]
    refine ⟨?_, by omega, by omega⟩
    have e : s * (-((-r) / s) - 1) = -(s * ((-r) / s)) - s := by ring
    rw [e]
    omega
  rw [h1, hq.1]
  omega

/-- Claim C19: on the recompute path the score is the quotient of the raw output
`r = output[0]` by `FV_SCALE` truncated toward zero: `score * FV_SCALE` plus the
remainder of truncated division is `r`, and `score * FV_SCALE` is no larger in
magnitude than `r`. It is not the floor: for positive `FV_SCALE` and a negative `r`
that `FV_SCALE` does not divide, it is the floor plus one. A recomputation whose raw
output is `-r` yields `-score`; integers are unbounded here, and for a 32-bit `r` other
than the minimum `-r` is again a 32-bit value. -/
theorem ComputeScore_truncates_toward_zero (a : Arch) (w : World a) (pos : a.Pos)
    (refresh : Bool) (h : refresh = true ∨ pos.accumulator.computed_score = false) :
    (ComputeScore a w pos refresh).value * a.FV_SCALE +
          Int.tmod (a.Propagate w.network (a.Transform w.feature_transformer pos refresh).1 0)
            a.FV_SCALE =
        a.Propagate w.network (a.Transform w.feature_transformer pos refresh).1 0 ∧
      |(ComputeScore a w pos refresh).value * a.FV_SCALE| ≤
        |a.Propagate w.network (a.Transform w.feature_transformer pos refresh).1 0| ∧
      (0 < a.FV_SCALE →
        a.Propagate w.network (a.Transform w.feature_transformer pos refresh).1 0 < 0 →
        ¬ a.FV_SCALE ∣ a.Propagate w.network (a.Transform w.feature_transformer pos refresh).1 0 →
        (ComputeScore a w pos refresh).value =
          a.Propagate w.network (a.Transform w.feature_transformer pos refresh).1 0 / a.FV_SCALE
            + 1) ∧
      (∀ (v : World a) (q : a.Pos) (f : Bool),
        (f = true ∨ q.accumulator.computed_score = false) →
        a.Propagate v.network (a.Transform v.feature_transformer q f).1 0 =
          -(a.Propagate w.network (a.Transform w.feature_transformer pos refresh).1 0) →
        (ComputeScore a v q f).value = -(ComputeScore a w pos refresh).value) := by
  have hval : ∀ (v : World a) (q : a.Pos) (f : Bool),
      (f = true ∨ q.accumulator.computed_score = false) →
      (ComputeScore a v q f).value =
        Int.tdiv (a.Propagate v.network (a.Transform v.feature_transformer q f).1 0)
          a.FV_SCALE := by
    intro v q f hf
    have hc : (!f && q.accumulator.computed_score) = false := by
      rcases hf with hf | hf <;> simp [hf]
    simp [ComputeScore, hc]
  rw [hval w pos refresh h]
  refine ⟨Int.tdiv_add_tmod' _ _, abs_tdiv_mul_le _ _, ?_, ?_⟩
  · intro hs hr hd
    exact tdiv_eq_floor_add_one hs hr hd
  · intro v q f hf hneg
    rw [hval v q f hf, hneg, Int.neg_tdiv]

/-- Witness for C19: the demo position, raw output -341 and scale 16: the score is -21
(the floor is -22), and -21 * 16 - 5 = -341. -/
theorem ComputeScore_truncates_toward_zero_witness :
    (ComputeScore demoArch demoLoaded demoPos false).value = -21 ∧
      (ComputeScore demoArch demoLoaded demoPos false).value * 16 + Int.tmod (-341) 16
        = -341 ∧
      (ComputeScore demoArch demoLoaded demoPos false).value = -341 / 16 + 1 :=
  ⟨by decide,
    (ComputeScore_truncates_toward_zero demoArch demoLoaded demoPos false (Or.inr rfl)).1,
    (ComputeScore_truncates_toward_zero demoArch demoLoaded demoPos false (Or.inr rfl)).2.2.1
      (by decide) (by decide) (by decide)⟩

end Eval.NNUE

/-! ## What the loader does not look at -/

namespace Eval.NNUE

/-- The header reader on a stream laid out as three four-byte fields followed by a
description of the announced length: only the version decides. -/
theorem ReadHeader_layout (a : Arch) (vb hb lb desc rest : List Byte)
    (hv : vb.length = 4) (hh : hb.length = 4) (hl : EncodesU32 a.bigEndian lb desc.length) :
    ReadHeader a (IStream.ofBytes (vb ++ (hb ++ (lb ++ (desc ++ rest))))) =
      if decodeU32 a.bigEndian vb = a.kVersion then
        ⟨true, IStream.ofBytes rest, ⟨some (decodeU32 a.bigEndian hb), desc⟩⟩
      else
        ⟨false, IStream.ofBytes (desc ++ rest), ⟨some (decodeU32 a.bigEndian hb), []⟩⟩ := by
  by_cases hver : decodeU32 a.bigEndian vb = a.kVersion
  · rw [if_pos hver]
    exact ReadHeader_valid a vb hb lb desc rest ⟨hv, hver⟩ hh hl
  · rw [if_neg hver]
    simp [ReadHeader, readU32_ofBytes_append _ _ _ hv, readU32_ofBytes_append _ _ _ hh,
      readU32_ofBytes_append _ _ _ hl.1, IStream.fail_ofBytes, hver]

/-- Claim C16: the description is read and dropped. Two files that agree on the three
fixed header fields and on everything after the description, and whose descriptions
have the announced length but any contents, get the same verdict from
`ReadParameters` and leave the same global state, both components included. -/
theorem description_not_validated (a : Arch) (w : World a)
    (vb hb lb desc desc2 rest : List Byte)
    (hv : vb.length = 4) (hh : hb.length = 4)
    (hl : EncodesU32 a.bigEndian lb desc.length) (hlen : desc2.length = desc.length) :
    (ReadParameters a (IStream.ofBytes (vb ++ (hb ++ (lb ++ (desc ++ rest))))) w).ok =
        (ReadParameters a (IStream.ofBytes (vb ++ (hb ++ (lb ++ (desc2 ++ rest))))) w).ok ∧
      (ReadParameters a (IStream.ofBytes (vb ++ (hb ++ (lb ++ (desc ++ rest))))) w).state =
        (ReadParameters a (IStream.ofBytes (vb ++ (hb ++ (lb ++ (desc2 ++ rest))))) w).state := by
  have hl2 : EncodesU32 a.bigEndian lb desc2.length := by
    rw [hlen]
    exact hl
  simp only [ReadParameters, ReadHeader_layout a vb hb lb desc rest hv hh hl,
    ReadHeader_layout a vb hb lb desc2 rest hv hh hl2]
  by_cases hver : decodeU32 a.bigEndian vb = a.kVersion
  · simp [hver]
  · simp [hver]

/-- Witness for C16: the demo file with description `hi` and with description `yo`. -/
theorem description_not_validated_witness :
    (ReadParameters demoArch (IStream.ofBytes (demoVersion ++ (demoHash ++ (demoLen ++
        ([104, 105] ++ (demoTag1 ++ (demoPayload1 ++ (demoTag2 ++ demoPayload2)))))))) demoWorld).ok =
      (ReadParameters demoArch (IStream.ofBytes (demoVersion ++ (demoHash ++ (demoLen ++
        ([121, 111] ++ (demoTag1 ++ (demoPayload1 ++ (demoTag2 ++ demoPayload2)))))))) demoWorld).ok ∧
    (ReadParameters demoArch (IStream.ofBytes (demoVersion ++ (demoHash ++ (demoLen ++
        ([104, 105] ++ (demoTag1 ++ (demoPayload1 ++ (demoTag2 ++ demoPayload2)))))))) demoWorld).state =
      (ReadParameters demoArch (IStream.ofBytes (demoVersion ++ (demoHash ++ (demoLen ++
        ([121, 111] ++ (demoTag1 ++ (demoPayload1 ++ (demoTag2 ++ demoPayload2)))))))) demoWorld).state :=
  description_not_validated demoArch demoWorld demoVersion demoHash demoLen [104, 105]
    [121, 111] (demoTag1 ++ (demoPayload1 ++ (demoTag2 ++ demoPayload2))) rfl rfl (by decide) rfl

/-- A fixed-size reader on a stream that starts with a whole payload: it succeeds and
stops right after the payload. -/
theorem Component.ReadsFixed.on_payload {T : Type} {c : Component T} {n : Nat}
    (hfix : c.ReadsFixed n) (p rest : List Byte) (x : T) (hp : p.length = n) :
    (c.ReadParameters (IStream.ofBytes (p ++ rest)) x).1 = true ∧
      (c.ReadParameters (IStream.ofBytes (p ++ rest)) x).2.1 = IStream.ofBytes rest := by
  obtain ⟨h1, h2⟩ := hfix (IStream.ofBytes (p ++ rest)) x
  rw [h1, h2, ← hp, IStream.read_ofBytes_append]
  exact ⟨rfl, rfl⟩

/-- With a fixed-size reader, the verdict of the tagged read and the stream it leaves
depend on the stream alone, not on the object written or on the call log. -/
theorem Detail.ReadParameters_fixed_indep {T : Type} (big : Bool) (c : Component T)
    (tag : Call) (n : Nat) (hfix : c.ReadsFixed n) (s : IStream) (x y : T)
    (k l : List Call) :
    (Detail.ReadParameters big c tag s x k).ok = (Detail.ReadParameters big c tag s y l).ok ∧
      (Detail.ReadParameters big c tag s x k).stream =
        (Detail.ReadParameters big c tag s y l).stream := by
  unfold Detail.ReadParameters
  simp only []
  split
  · exact ⟨rfl, rfl⟩
  · obtain ⟨a1, a2⟩ := hfix (readU32 big s).2 x
    obtain ⟨b1, b2⟩ := hfix (readU32 big s).2 y
    exact ⟨by rw [a1, b1], by rw [a2, b2]⟩

/-- Claim C17: with component readers that consume a fixed number of bytes whatever
their values, a file laid out as header fields, description of the announced length,
feature-transformer tag and payload 1 of the feature transformer's size, followed by
the rest, on which `ReadParameters` succeeds, is still accepted after one byte of
payload 1 is changed: the loader compares the hashes and nothing of the payload. -/
theorem payload_byte_change_accepted (a : Arch) (n1 n2 : Nat)
    (hft : a.FeatureTransformer.ReadsFixed n1) (hnet : a.Network.ReadsFixed n2)
    (vb hb lb desc t1 p1 q1 t2 p2 : List Byte) (w v : World a)
    (hv : vb.length = 4) (hh : hb.length = 4) (hl : EncodesU32 a.bigEndian lb desc.length)
    (ht1 : t1.length = 4) (hp1 : p1.length = n1) (hchg : SingleByteChange p1 q1)
    (hok : (ReadParameters a (IStream.ofBytes (blob vb hb lb desc t1 p1 t2 p2)) w).ok = true) :
    (ReadParameters a (IStream.ofBytes (blob vb hb lb desc t1 q1 t2 p2)) v).ok = true := by
  have hq1 : q1.length = n1 := by rw [hchg.length_eq, hp1]
  unfold blob at hok ⊢
  obtain ⟨c1, c2, c3, c4, c5, c6⟩ := (ReadParameters_ok_iff a _ w).1 hok
  rw [ReadParameters_ok_iff]
  rw [ReadHeader_layout a vb hb lb desc _ hv hh hl] at c1 c2 c3 c4 c5 c6
  rw [ReadHeader_layout a vb hb lb desc _ hv hh hl]
  by_cases hver : decodeU32 a.bigEndian vb = a.kVersion
  swap
  · rw [if_neg hver] at c1
    exact Bool.noConfusion c1
  rw [if_pos hver] at c2 c3 c4 c5 c6
  rw [if_pos hver]
  simp only [] at c2 c3 c4 c5 c6 ⊢
  by_cases htag : decodeU32 a.bigEndian t1 = a.FeatureTransformer.GetHashValue
  swap
  · have hne : (readU32 a.bigEndian (IStream.ofBytes (t1 ++ (p1 ++ (t2 ++ p2))))).1 ≠
        some a.FeatureTransformer.GetHashValue :=
      readU32_ne_of_mismatch _ _ t1 _ _ rfl ⟨ht1, htag⟩
    rw [Detail.ReadParameters_mismatch _ _ _ _ _ _ hne] at c3
    exact Bool.noConfusion c3
  have e1 := Detail.ReadParameters_match a.bigEndian a.FeatureTransformer
    Call.FeatureTransformer_ReadParameters t1 (p1 ++ (t2 ++ p2)) w.feature_transformer w.calls
    ⟨ht1, htag⟩
  have e2 := Detail.ReadParameters_match a.bigEndian a.FeatureTransformer
    Call.FeatureTransformer_ReadParameters t1 (q1 ++ (t2 ++ p2)) v.feature_transformer v.calls
    ⟨ht1, htag⟩
  obtain ⟨f1, f2⟩ := hft.on_payload p1 (t2 ++ p2) w.feature_transformer hp1
  obtain ⟨g1, g2⟩ := hft.on_payload q1 (t2 ++ p2) v.feature_transformer hq1
  rw [e1] at c4 c5 c6
  rw [e2]
  simp only [f2] at c4 c5 c6
  simp only [g1, g2]
  obtain ⟨i1, i2⟩ := Detail.ReadParameters_fixed_indep a.bigEndian a.Network
    Call.Network_ReadParameters n2 hnet (IStream.ofBytes (t2 ++ p2)) v.network w.network
    ((a.FeatureTransformer.ReadParameters (IStream.ofBytes (q1 ++ (t2 ++ p2)))
      v.feature_transformer).2.2, v.calls ++ [Call.FeatureTransformer_ReadParameters]).2
    ((a.FeatureTransformer.ReadParameters (IStream.ofBytes (p1 ++ (t2 ++ p2)))
      w.feature_transformer).2.2, w.calls ++ [Call.FeatureTransformer_ReadParameters]).2
  refine ⟨trivial, c2, trivial, ?_, ?_, ?_⟩
  · rw [i1]
    exact c4
  · rw [i2]
    exact c5
  · rw [i2]
    exact c6

/-- Witness for C17: the demo file with the second byte of payload 1 changed from 9 to
10. -/
theorem payload_byte_change_accepted_witness :
    (ReadParameters demoArch (IStream.ofBytes
      (blob demoVersion demoHash demoLen demoDesc demoTag1 [7, 10] demoTag2 demoPayload2))
      demoWorld).ok = true :=
  payload_byte_change_accepted demoArch 2 1 (fun _ _ => ⟨rfl, rfl⟩) (fun _ _ => ⟨rfl, rfl⟩)
    demoVersion demoHash demoLen demoDesc demoTag1 demoPayload1 [7, 10] demoTag2 demoPayload2
    demoWorld demoWorld rfl rfl (by decide) rfl rfl ⟨[7], 9, 10, [], by decide, rfl, rfl⟩
    (by decide)

end Eval.NNUE

/-! ## Loading from a file -/

namespace Eval.NNUE

/-- The tagged read either fails without touching the object or the log, or logs the
call of the component's reader and leaves the object as that reader left it. -/
theorem Detail.tagged_read_frame {T : Type} (big : Bool) (c : Component T) (tag : Call)
    (s : IStream) (x : T) (k : List Call) :
    ((Detail.ReadParameters big c tag s x k).ok = false ∧
        (Detail.ReadParameters big c tag s x k).state = (x, k)) ∨
      (Detail.ReadParameters big c tag s x k).state =
        ((c.ReadParameters (readU32 big s).2 x).2.2, k ++ [tag]) := by
  unfold Detail.ReadParameters
  simp only []
  split
  · exact Or.inl ⟨rfl, rfl⟩
  · exact Or.inr rfl

/-- How far a load got, read off the ghost log: it failed before any component reader
ran and changed nothing; or it failed after the feature transformer's reader ran and
left the network alone; or both readers ran. A component whose reader ran is as that
reader left the object it was given. -/
theorem ReadParameters_frame (a : Arch) (s : IStream) (w : World a) :
    ((ReadParameters a s w).ok = false ∧ (ReadParameters a s w).state = w) ∨
      ((ReadParameters a s w).ok = false ∧
        (ReadParameters a s w).state.calls = w.calls ++ [Call.FeatureTransformer_ReadParameters] ∧
        (ReadParameters a s w).state.network = w.network ∧
        ∃ s1 : IStream, (ReadParameters a s w).state.feature_transformer =
          (a.FeatureTransformer.ReadParameters s1 w.feature_transformer).2.2) ∨
      ((ReadParameters a s w).state.calls =
          w.calls ++ [Call.FeatureTransformer_ReadParameters, Call.Network_ReadParameters] ∧
        (∃ s1 : IStream, (ReadParameters a s w).state.feature_transformer =
          (a.FeatureTransformer.ReadParameters s1 w.feature_transformer).2.2) ∧
        ∃ s2 : IStream, (ReadParameters a s w).state.network =
          (a.Network.ReadParameters s2 w.network).2.2) := by
  have k1 := Detail.tagged_read_frame a.bigEndian a.FeatureTransformer
    Call.FeatureTransformer_ReadParameters (ReadHeader a s).stream w.feature_transformer w.calls
  unfold ReadParameters
  simp only []
  generalize Detail.ReadParameters a.bigEndian a.FeatureTransformer
    Call.FeatureTransformer_ReadParameters (ReadHeader a s).stream w.feature_transformer
    w.calls = R1 at k1 ⊢
  have k2 := Detail.tagged_read_frame a.bigEndian a.Network
    Call.Network_ReadParameters R1.stream w.network R1.state.2
  generalize Detail.ReadParameters a.bigEndian a.Network
    Call.Network_ReadParameters R1.stream w.network R1.state.2 = R2 at k2 ⊢
  split_ifs with c1 c2 c3 c4 c5
  · exact Or.inl ⟨rfl, rfl⟩
  · exact Or.inl ⟨rfl, rfl⟩
  · rcases k1 with ⟨_, e⟩ | e
    · left
      refine ⟨rfl, ?_⟩
      rw [e]
    · right
      left
      refine ⟨rfl, ?_, rfl, ⟨(readU32 a.bigEndian (ReadHeader a s).stream).2, ?_⟩⟩
      · rw [e]
      · rw [e]
  all_goals
    rcases k1 with ⟨o, _⟩ | e
    · rw [o] at c3
      exact absurd rfl c3
    · rcases k2 with ⟨o2, e2⟩ | e2
      · first
          | (rw [o2] at c4; exact absurd rfl c4)
          | (right; left
             refine ⟨rfl, ?_, ?_, ⟨(readU32 a.bigEndian (ReadHeader a s).stream).2, ?_⟩⟩ <;>
               simp [e2, e])
      · right
        right
        refine ⟨?_, ⟨(readU32 a.bigEndian (ReadHeader a s).stream).2, ?_⟩,
          ⟨(readU32 a.bigEndian R1.stream).2, ?_⟩⟩ <;> simp [e2, e]

theorem load_eval_world (a : Arch) (files : String → Option (List Byte)) (evalFile : String)
    (w : World a) :
    (load_eval a files evalFile w).world =
        (ReadParameters a (ifstream files evalFile)
          { Initialize a w with fileName := evalFile }).state ∧
      (load_eval a files evalFile w).result =
        (ReadParameters a (ifstream files evalFile)
          { Initialize a w with fileName := evalFile }).ok := by
  unfold load_eval
  simp only []
  split <;> exact ⟨rfl, rfl⟩

theorem CalledSince.append_self (k l : List Call) (c : Call) (h : c ∈ l) :
    CalledSince k (k ++ l) c := by
  unfold CalledSince
  rw [List.drop_left]
  exact h

theorem CalledSince.not_self (k : List Call) (c : Call) : ¬ CalledSince k k c := by
  unfold CalledSince
  simp

/-- A load that does not get past the header, the global hash or the feature
transformer's tag fails and returns the global state it was given. -/
theorem ReadParameters_stops_early (a : Arch) (s : IStream) (w : World a)
    (h : (ReadHeader a s).ok = false ∨
      (ReadHeader a s).state.hash_value ≠ some a.kHashValue ∨
      (readU32 a.bigEndian (ReadHeader a s).stream).1 ≠
        some a.FeatureTransformer.GetHashValue) :
    (ReadParameters a s w).ok = false ∧ (ReadParameters a s w).state = w := by
  unfold ReadParameters
  simp only []
  by_cases c1 : (!(ReadHeader a s).ok) = true
  · rw [if_pos c1]
    exact ⟨rfl, rfl⟩
  rw [if_neg c1]
  by_cases c2 : ((ReadHeader a s).state.hash_value != some a.kHashValue) = true
  · rw [if_pos c2]
    exact ⟨rfl, rfl⟩
  rw [if_neg c2]
  rcases h with h | h | h
  · rw [h] at c1
    exact absurd rfl c1
  · exact absurd (by simpa using h) c2
  · rw [Detail.ReadParameters_mismatch _ _ _ _ _ _ h]
    exact ⟨rfl, rfl⟩

theorem ReadHeader_fail_of_not_good (a : Arch) {s : IStream} (h : s.good = false) :
    (ReadHeader a s).ok = false := by
  apply ReadHeader_version
  rw [readU32_of_not_good _ h]
  exact fun hc => Option.noConfusion hc

/-- Each defect listed in `EarlyFailure` stops the load at the header, at the global
hash or at the feature transformer's tag. -/
theorem EarlyFailure.stops (a : Arch) (files : String → Option (List Byte))
    (evalFile : String) (h : EarlyFailure a (files evalFile)) :
    (ReadHeader a (ifstream files evalFile)).ok = false ∨
      (ReadHeader a (ifstream files evalFile)).state.hash_value ≠ some a.kHashValue ∨
      (readU32 a.bigEndian (ReadHeader a (ifstream files evalFile)).stream).1 ≠
        some a.FeatureTransformer.GetHashValue := by
  generalize hf : files evalFile = f at h
  cases h with
  | not_opened =>
    left
    simp only [ifstream, hf]
    exact ReadHeader_fail_of_not_good a rfl
  | short_header d hd =>
    left
    simp only [ifstream, hf]
    by_contra hc
    rw [Bool.not_eq_false] at hc
    have := (ReadHeader_ok_ofBytes a d hc).1
    omega
  | version vb rest h4 hne =>
    left
    simp only [ifstream, hf]
    apply ReadHeader_version
    rw [readU32_ofBytes_append _ _ _ h4]
    intro hc
    exact hne (Option.some.inj hc)
  | global_hash vb hb rest hv hh hne =>
    right
    left
    simp only [ifstream, hf]
    rw [ReadHeader_hash_value, readU32_ofBytes_append _ _ _ hv, readU32_ofBytes_append _ _ _ hh]
    intro hc
    exact hne (Option.some.inj hc)
  | short_description_or_tag vb hb lb rest hv hh hl hshort =>
    simp only [ifstream, hf]
    by_cases hok : (ReadHeader a (IStream.ofBytes (vb ++ (hb ++ (lb ++ rest))))).ok = true
    swap
    · left
      rw [Bool.not_eq_true] at hok
      exact hok
    right
    right
    obtain ⟨_, _, e⟩ := ReadHeader_ok_ofBytes a _ hok
    rw [e]
    have h8 : (vb ++ (hb ++ (lb ++ rest))).drop 8 = lb ++ rest := by
      rw [show 8 = vb.length + hb.length by omega, ← List.drop_drop, List.drop_left,
        List.drop_left]
    have h12 : ∀ n, (vb ++ (hb ++ (lb ++ rest))).drop (12 + n) = rest.drop n := by
      intro n
      rw [show 12 + n = vb.length + (hb.length + (lb.length + n)) by omega, ← List.drop_drop,
        ← List.drop_drop, ← List.drop_drop, List.drop_left, List.drop_left, List.drop_left]
    rw [h8, h12, List.take_left' hl, readU32_ofBytes]
    have hlt : ¬ 4 ≤ (rest.drop (decodeU32 a.bigEndian lb)).length := by
      rw [List.length_drop]
      omega
    rw [if_neg hlt]
    exact fun hc => Option.noConfusion hc
  | feature_tag vb hb lb desc t1 rest hv hh hl hm =>
    simp only [ifstream, hf]
    rw [ReadHeader_layout a vb hb lb desc _ hv hh hl]
    by_cases hver : decodeU32 a.bigEndian vb = a.kVersion
    · right
      right
      rw [if_pos hver]
      exact readU32_ne_of_mismatch _ _ t1 rest _ rfl hm
    · left
      rw [if_neg hver]

/-- After a valid header and a matching feature-transformer tag, a mismatching tag
where the feature transformer's reader leaves the stream fails the load with the
network untouched and the feature transformer as its reader left it. -/
theorem ReadParameters_network_tag_mismatch (a : Arch) (w : World a)
    (vb hb lb desc t1 rest t2 rest2 : List Byte)
    (hv : EncodesU32 a.bigEndian vb a.kVersion)
    (hh : EncodesU32 a.bigEndian hb a.kHashValue)
    (hl : EncodesU32 a.bigEndian lb desc.length)
    (ht1 : EncodesU32 a.bigEndian t1 a.FeatureTransformer.GetHashValue)
    (hd : (a.FeatureTransformer.ReadParameters (IStream.ofBytes rest)
      w.feature_transformer).2.1.data = t2 ++ rest2)
    (hm : TagMismatch a.bigEndian t2 a.Network.GetHashValue) :
    (ReadParameters a (IStream.ofBytes (vb ++ (hb ++ (lb ++ (desc ++ (t1 ++ rest)))))) w).ok
        = false ∧
      (ReadParameters a (IStream.ofBytes (vb ++ (hb ++ (lb ++ (desc ++ (t1 ++ rest)))))) w).state.network
        = w.network ∧
      (ReadParameters a (IStream.ofBytes (vb ++ (hb ++ (lb ++ (desc ++ (t1 ++ rest)))))) w).state.feature_transformer
        = (a.FeatureTransformer.ReadParameters (IStream.ofBytes rest) w.feature_transformer).2.2 := by
  have hne := readU32_ne_of_mismatch a.bigEndian _ t2 rest2 _ hd hm
  simp only [ReadParameters, ReadHeader_valid a vb hb lb desc _ hv hh.1 hl, hh.2,
    Detail.ReadParameters_match _ _ _ t1 _ _ _ ht1,
    Detail.ReadParameters_mismatch _ _ _ _ _ _ hne]
  cases (a.FeatureTransformer.ReadParameters (IStream.ofBytes rest) w.feature_transformer).1
    <;> simp

/-- The load of a well-formed file whose payloads the component readers accept: it
succeeds and each component is what its reader made of the object it was given. -/
theorem ReadParameters_valid_blob_state (a : Arch) (w : World a)
    (vb hb lb desc t1 p1 t2 p2 : List Byte) (ft1 : a.FT) (net1 : a.Net) (s3 : IStream)
    (hv : EncodesU32 a.bigEndian vb a.kVersion)
    (hh : EncodesU32 a.bigEndian hb a.kHashValue)
    (hl : EncodesU32 a.bigEndian lb desc.length)
    (ht1 : EncodesU32 a.bigEndian t1 a.FeatureTransformer.GetHashValue)
    (ht2 : EncodesU32 a.bigEndian t2 a.Network.GetHashValue)
    (hft : a.FeatureTransformer.ReadParameters (IStream.ofBytes (p1 ++ (t2 ++ p2)))
      w.feature_transformer = (true, IStream.ofBytes (t2 ++ p2), ft1))
    (hnet : a.Network.ReadParameters (IStream.ofBytes p2) w.network = (true, s3, net1))
    (hend : s3.data = []) (hs3 : s3.fail = false) :
    (ReadParameters a (IStream.ofBytes (blob vb hb lb desc t1 p1 t2 p2)) w).ok = true ∧
      (ReadParameters a (IStream.ofBytes (blob vb hb lb desc t1 p1 t2 p2)) w).state.feature_transformer
        = ft1 ∧
      (ReadParameters a (IStream.ofBytes (blob vb hb lb desc t1 p1 t2 p2)) w).state.network = net1 := by
  have hp : s3.peek.1 = none := IStream.peek_of_data_nil hend
  simp [blob, ReadParameters, ReadHeader_valid a vb hb lb desc _ hv hh.1 hl, hh.2,
    Detail.ReadParameters_match _ _ _ t1 _ _ _ ht1, hft,
    Detail.ReadParameters_match _ _ _ t2 _ _ _ ht2, hnet, hs3, hp]

/-- Counterexample to C13 as stated: the demo file is loaded and `demoPos` evaluated
(score -21); after a successful reload from a file with other weights, `evaluate` of
that position still returns the cached -21, while the score computed from the new
weights is -15 by a full refresh and -33 through `Transform` without refresh. -/
theorem reload_keeps_cached_score :
    (load_eval demoArch demoFiles "nn.bin" demoWorld).result = true ∧
      (load_eval demoArch demoFiles "other.bin" demoEvaluatedWorld).result = true ∧
      demoReloadedWorld.feature_transformer = [1, 1] ∧
      demoReloadedWorld.network = [200] ∧
      (evaluate demoArch demoReloadedWorld demoEvaluatedPos).value = -21 ∧
      (compute_eval demoArch demoReloadedWorld demoEvaluatedPos).value = -15 ∧
      Int.tdiv (demoArch.Propagate demoReloadedWorld.network
        (demoArch.Transform demoReloadedWorld.feature_transformer demoEvaluatedPos false).1 0)
        demoArch.FV_SCALE = -33 ∧
      (evaluate demoArch demoReloadedWorld demoEvaluatedPos).value ≠
        (compute_eval demoArch demoReloadedWorld demoEvaluatedPos).value :=
  ⟨by decide, by decide, rfl, rfl, by decide, by decide, by decide, by decide⟩

/-- Claim C13, amended: a reload from a well-formed file whose payloads the component
readers accept succeeds and leaves in both components what their readers made of the
zeroed objects from that file, whatever weights were loaded before; `load_eval` takes
no position and so touches no accumulator. On that state `compute_eval` of any
position returns the score computed from the newly loaded weights, by `Transform` with
refresh and `Propagate`; `evaluate` computes from them, by `Transform` without refresh
and `Propagate`, when the position's `computed_score` is clear, and when it is set
returns the `score` cached before the reload without calling any component. -/
theorem reload_then_evaluate (a : Arch) (files : String → Option (List Byte))
    (evalFile : String) (w : World a) (pos : a.Pos)
    (vb hb lb desc t1 p1 t2 p2 : List Byte) (ft1 : a.FT) (net1 : a.Net) (s3 : IStream)
    (hfile : files evalFile = some (blob vb hb lb desc t1 p1 t2 p2))
    (hv : EncodesU32 a.bigEndian vb a.kVersion)
    (hh : EncodesU32 a.bigEndian hb a.kHashValue)
    (hl : EncodesU32 a.bigEndian lb desc.length)
    (ht1 : EncodesU32 a.bigEndian t1 a.FeatureTransformer.GetHashValue)
    (ht2 : EncodesU32 a.bigEndian t2 a.Network.GetHashValue)
    (hft : a.FeatureTransformer.ReadParameters (IStream.ofBytes (p1 ++ (t2 ++ p2)))
      a.FeatureTransformer.zero = (true, IStream.ofBytes (t2 ++ p2), ft1))
    (hnet : a.Network.ReadParameters (IStream.ofBytes p2) a.Network.zero = (true, s3, net1))
    (hend : s3.data = []) (hs3 : s3.fail = false) :
    (load_eval a files evalFile w).result = true ∧
      (load_eval a files evalFile w).world.feature_transformer = ft1 ∧
      (load_eval a files evalFile w).world.network = net1 ∧
      (compute_eval a (load_eval a files evalFile w).world pos).value =
        Int.tdiv (a.Propagate net1 (a.Transform ft1 pos true).1 0) a.FV_SCALE ∧
      (pos.accumulator.computed_score = false →
        (evaluate a (load_eval a files evalFile w).world pos).value =
          Int.tdiv (a.Propagate net1 (a.Transform ft1 pos false).1 0) a.FV_SCALE) ∧
      (pos.accumulator.computed_score = true →
        evaluate a (load_eval a files evalFile w).world pos =
          ⟨pos.accumulator.score, (load_eval a files evalFile w).world, pos⟩) := by
  obtain ⟨hw, hr⟩ := load_eval_world a files evalFile w
  have hs : ifstream files evalFile = IStream.ofBytes (blob vb hb lb desc t1 p1 t2 p2) := by
    simp only [ifstream, hfile]
  obtain ⟨o, e1, e2⟩ := ReadParameters_valid_blob_state a
    { Initialize a w with fileName := evalFile } vb hb lb desc t1 p1 t2 p2 ft1 net1 s3
    hv hh hl ht1 ht2 hft hnet hend hs3
  rw [← hs, ← hw] at e1 e2
  rw [← hs, ← hr] at o
  refine ⟨o, e1, e2, ?_, ?_, ?_⟩
  · simp [compute_eval, ComputeScore, e1, e2]
  · intro h
    simp [evaluate, ComputeScore, h, e1, e2]
  · intro h
    simp [evaluate, ComputeScore, h]

/-- Witness for C13: the reload of the demo from the second file, over the weights of
the first: the components hold the second file's payloads, `compute_eval` returns -15,
the score of the new weights, and `evaluate` the cached -21. -/
theorem reload_then_evaluate_witness :
    (load_eval demoArch demoFiles "other.bin" demoEvaluatedWorld).result = true ∧
      (load_eval demoArch demoFiles "other.bin" demoEvaluatedWorld).world.feature_transformer
        = [1, 1] ∧
      (load_eval demoArch demoFiles "other.bin" demoEvaluatedWorld).world.network = [200] ∧
      (compute_eval demoArch (load_eval demoArch demoFiles "other.bin" demoEvaluatedWorld).world
        demoEvaluatedPos).value = -15 ∧
      evaluate demoArch (load_eval demoArch demoFiles "other.bin" demoEvaluatedWorld).world
          demoEvaluatedPos =
        ⟨-21, (load_eval demoArch demoFiles "other.bin" demoEvaluatedWorld).world,
          demoEvaluatedPos⟩ := by
  have h := reload_then_evaluate demoArch demoFiles "other.bin" demoEvaluatedWorld
    demoEvaluatedPos demoVersion demoHash demoLen demoDesc demoTag1 [1, 1] demoTag2 [200]
    [1, 1] [200] (IStream.ofBytes []) rfl (by decide) (by decide) (by decide) (by decide)
    (by decide) rfl rfl rfl rfl
  exact ⟨h.1, h.2.1, h.2.2.1, h.2.2.2.1, h.2.2.2.2.2 rfl⟩

end Eval.NNUE

/-! ## The piece table -/

/-- Claim C20: the table has sixteen entries; for every piece code `p` in 0..15 the
entry of the opposite-coloured piece `p XOR 8` is the entry of `p` with its two
perspectives exchanged; and the codes 0, 7, 8 and 15, which are no real piece, map to
`PS_NONE` from both perspectives. Every equality is between identical enumerators,
so it holds whatever their numeric values. -/
theorem kpp_board_index_colour_symmetric :
    kpp_board_index.length = 16 ∧
      (∀ p : Fin 16,
        kpp_board_index[p.val ^^^ 8]? = (kpp_board_index[p.val]?).map ExtPieceSquare.swap) ∧
      kpp_board_index[0]? = some ⟨PieceSquare.PS_NONE, PieceSquare.PS_NONE⟩ ∧
      kpp_board_index[7]? = some ⟨PieceSquare.PS_NONE, PieceSquare.PS_NONE⟩ ∧
      kpp_board_index[8]? = some ⟨PieceSquare.PS_NONE, PieceSquare.PS_NONE⟩ ∧
      kpp_board_index[15]? = some ⟨PieceSquare.PS_NONE, PieceSquare.PS_NONE⟩ := by
  decide
